import Mathlib

/-!
Shallow embedding of the YouTube comment-harvesting pipeline
(`quota_manager.py`, `comment_deduplicator.py`, `comment_processor.py`,
`settings.py`), with theorems checking the natural-language specification
against the code.

Conventions of the embedding:
* Python dictionaries appear as insertion-ordered association lists.
* Python sets of strings appear as duplicate-free `List String` built by
  guarded insertion, matching the membership tests in the source.
* Machine-environment inputs (`datetime.now()`, file contents, the remote
  API) are explicit parameters.
* Exceptions are `Except`/`Option` results; where the source can mutate
  state before raising, the embedding returns the state at raise time.
-/

namespace CommentsYoutube

/-! ### settings.py -/

def QUOTA_LIMIT_PER_DAY : Nat := 10000

def MAX_RETRIES : Nat := 5

def RETRY_STATUS_CODES : List Nat := [403, 429, 500, 502, 503, 504]

def MIN_COMMENTS_THRESHOLD : Nat := 5

/-- `QUOTA_COSTS` dict from settings.py; `none` for a key not present. -/
def QUOTA_COSTS (operation_type : String) : Option Nat :=
  if operation_type = "search" then some 100
  else if operation_type = "videos_list" then some 1
  else if operation_type = "comment_threads" then some 1
  else if operation_type = "comments_list" then some 1
  else if operation_type = "channel_list" then some 1
  else none

/-! ### quota_manager.py -/

/-- One entry of `QuotaManager.operation_log`. The `timestamp` field is
`datetime.now().isoformat()` in the source; the embedding receives the
clock value as an explicit argument. -/
structure LogEntry where
  timestamp : String
  operation : String
  cost : Nat
  description : String
  total_used : Nat
deriving Repr, DecidableEq

/-- Mutable state of a `QuotaManager`. Dates are modelled as day numbers
(`datetime.date` supports only order comparisons here). -/
structure QuotaState where
  quota_used : Nat
  last_reset : Nat
  operation_log : List LogEntry
deriving Repr, DecidableEq

/-- `QUOTA_COSTS.get(operation_type, cost)` from both
`check_quota` and `use_quota`. -/
def actual_cost (operation_type : String) (cost : Nat) : Nat :=
  (QUOTA_COSTS operation_type).getD cost

/-- `QuotaManager.check_quota`. -/
def check_quota (st : QuotaState) (operation_type : String) (cost : Nat) : Bool :=
  st.quota_used + actual_cost operation_type cost ≤ QUOTA_LIMIT_PER_DAY

/-- `QuotaManager.use_quota`. Returns the state of the manager after the
call together with `some errorMessage` when the call raised. The raise
happens before any field is assigned, so on error the returned state is
the input state. `now` is the current `datetime.now().isoformat()`. -/
def use_quota (st : QuotaState) (operation_type : String) (cost : Nat)
    (description : String) (now : String) : QuotaState × Option String :=
  let ac := actual_cost operation_type cost
  if ¬ check_quota st operation_type cost then
    (st, some "Daily quota limit exceeded.")
  else
    let used := st.quota_used + ac
    ({ st with
        quota_used := used,
        operation_log := st.operation_log ++
          [⟨now, operation_type, ac, description, used⟩] },
      none)

/-- `QuotaManager.get_remaining_quota` (Python subtraction can go
negative only if `quota_used` exceeded the limit, which `use_quota`
prevents; `Nat` truncation is harmless there). -/
def get_remaining_quota (st : QuotaState) : Nat :=
  QUOTA_LIMIT_PER_DAY - st.quota_used

/-- The parsed content of `quota_usage.json`: each field may be absent
(`data.get(...)` with a default). -/
structure StoredQuota where
  quota_used : Option Nat
  last_reset : Option Nat
  operation_log : Option (List LogEntry)
deriving Repr, DecidableEq

/-- `QuotaManager.load_quota_state`. `stored = none` is the
`FileNotFoundError` branch (the in-memory state is kept and saved);
`today` is `datetime.now().date()`; `st0` is the state of the freshly
constructed manager. -/
def load_quota_state (stored : Option StoredQuota) (today : Nat)
    (st0 : QuotaState) : QuotaState :=
  match stored with
  | none => st0
  | some data =>
    let st : QuotaState :=
      { quota_used := data.quota_used.getD 0
        last_reset := data.last_reset.getD today
        operation_log := data.operation_log.getD [] }
    if st.last_reset < today then
      { quota_used := 0, operation_log := [], last_reset := today }
    else
      st

/-! ### comment_deduplicator.py: data model -/

/-- Generic lookup in a Python-dict-as-association-list. -/
def dictFind? {β : Type} (k : String) : List (String × β) → Option β
  | [] => none
  | (k', v) :: t => if k' = k then some v else dictFind? k t

/-- Generic key update in a Python-dict-as-association-list: overwrites
in place when the key exists, appends otherwise (Python insertion
order). -/
def dictSet {β : Type} (k : String) (v : β) : List (String × β) → List (String × β)
  | [] => [(k, v)]
  | (k', v') :: t => if k' = k then (k, v) :: t else (k', v') :: dictSet k v t

/-- Python truthiness of an optional string field (`if comment_id:`):
false for a missing key and for the empty string. -/
def truthy : Option String → Bool
  | none => false
  | some s => decide (s ≠ "")

/-- One value of the `previous_comments` / rebuilt-history dict. -/
structure DedupRecord where
  first_collected : String
  last_collected : String
  collection_history : List String
  author : String
  video_id : String
deriving Repr, DecidableEq

/-- `CommentDeduplicator.previous_comments`: itemId → DedupRecord, in
insertion order. -/
abbrev History := List (String × DedupRecord)

/-- A comment dict as stored in a previous harvest file (fields read
with `comment.get(...)`, so each may be absent). -/
structure StoredComment where
  comment_id : Option String
  publish_date : Option String
  author : Option String
  video_id : Option String
deriving Repr, DecidableEq

/-- One entry of the per-video mapping inside a previous harvest file:
only `video_data.get('comments', [])` is read. -/
structure RawFileVideo where
  comments : Option (List StoredComment)
deriving Repr, DecidableEq

/-- A previously persisted harvest file. `stem` is `raw_file.stem`;
`videos` is `previous_data['videos']` when that key exists, otherwise
`previous_data` itself (the two branches of the format check). -/
structure RawFile where
  stem : String
  videos : List (String × RawFileVideo)
deriving Repr, DecidableEq

/-- Python `str.replace` on character lists: replaces every
non-overlapping occurrence of `pat` from left to right. `fuel` bounds
the recursion; the callers pass the string length, which suffices. -/
def replaceCharsAux (pat rep : List Char) : Nat → List Char → List Char
  | 0, s => s
  | _, [] => []
  | fuel + 1, ch :: rest =>
    if (ch :: rest).take pat.length = pat then
      rep ++ replaceCharsAux pat rep fuel ((ch :: rest).drop pat.length)
    else
      ch :: replaceCharsAux pat rep fuel rest

/-- Python `str.replace(pat, rep)` (for a nonempty pattern it replaces
every non-overlapping occurrence left to right; an empty pattern leaves
the callers' strings unchanged in the cases the source exercises). -/
def pyReplace (s pat rep : String) : String :=
  if pat.data = [] then s
  else ⟨replaceCharsAux pat.data rep.data s.data.length s.data⟩

/-- Timestamp extraction from a harvest filename:
`raw_file.stem.replace('comments_', '').replace('.json', '')`. -/
def file_timestamp (stem : String) : String :=
  pyReplace (pyReplace stem "comments_" "") ".json" ""

/-- Processing of one stored comment inside
`CommentDeduplicator._rebuild_from_previous_runs`. -/
def rebuildComment (ts : String) (hist : History) (c : StoredComment) : History :=
  if ¬ truthy c.comment_id then hist
  else
    let cid := c.comment_id.getD ""
    match dictFind? cid hist with
    | none =>
      hist ++ [(cid,
        { first_collected := c.publish_date.getD ""
          last_collected := ts
          collection_history := [ts]
          author := c.author.getD "Unknown"
          video_id := c.video_id.getD "" })]
    | some r =>
      if ts ∈ r.collection_history then hist
      else
        dictSet cid
          { r with
              collection_history := r.collection_history ++ [ts]
              last_collected := ts }
          hist

/-- `CommentDeduplicator._rebuild_from_previous_runs`, given the parsed
previous harvest files in glob order (`comments_*.json` then
`comments_*.json.gz`). -/
def rebuild_from_previous_runs (files : List RawFile) : History :=
  files.foldl
    (fun hist f =>
      f.videos.foldl
        (fun h v =>
          (v.2.comments.getD []).foldl (rebuildComment (file_timestamp f.stem)) h)
        hist)
    []

/-! ### comment_deduplicator.py: filter_new_comments_only -/

/-- A freshly harvested comment, as consumed by
`filter_new_comments_only` (only these fields are read there). -/
structure HarvestComment where
  comment_id : Option String
  author : Option String
  video_id : Option String
deriving Repr, DecidableEq

/-- One video's entry in the input batch. `video_info` is an opaque
payload carried through unchanged. -/
structure VideoData where
  video_info : Option String
  comments : Option (List HarvestComment)
deriving Repr, DecidableEq

/-- One video's entry in the filtered output tree. -/
structure FilteredVideo where
  video_info : Option String
  comments : List HarvestComment
deriving Repr, DecidableEq

/-- The `stats` dict of `filter_new_comments_only`. -/
structure FilterStats where
  total_processed : Nat
  new_comments : Nat
  duplicates_filtered : Nat
deriving Repr, DecidableEq

/-- The input tree channelId → videoId → VideoData. -/
abbrev Batch := List (String × List (String × VideoData))

/-- The output tree channelId → videoId → FilteredVideo. -/
abbrev FilteredBatch := List (String × List (String × FilteredVideo))

/-- Processing of one comment in the inner loop of
`filter_new_comments_only`: returns whether it was kept as new, plus
the updated history and stats. `run_id` and `now` are the
deduplicator's run id and the current clock reading. -/
def filterComment (run_id now : String) (prev : History) (stats : FilterStats)
    (c : HarvestComment) : Bool × History × FilterStats :=
  let stats := { stats with total_processed := stats.total_processed + 1 }
  let cid := c.comment_id.getD ""
  if truthy c.comment_id = true ∧ dictFind? cid prev = none then
    (true,
      prev ++ [(cid,
        { first_collected := now
          last_collected := now
          collection_history := [run_id]
          author := c.author.getD "Unknown"
          video_id := c.video_id.getD "" })],
      { stats with new_comments := stats.new_comments + 1 })
  else
    let stats := { stats with duplicates_filtered := stats.duplicates_filtered + 1 }
    if h : truthy c.comment_id = true ∧ (dictFind? cid prev).isSome then
      let r := (dictFind? cid prev).get h.2
      if run_id ∈ r.collection_history then (false, prev, stats)
      else
        (false,
          dictSet cid
            { r with
                collection_history := r.collection_history ++ [run_id]
                last_collected := now }
            prev,
          stats)
    else
      (false, prev, stats)

/-- One step of the per-video comment loop of
`filter_new_comments_only`: extends `new_comments_for_video` when the
comment is new. -/
def fvcStep (run_id now : String)
    (acc : List HarvestComment × History × FilterStats) (c : HarvestComment) :
    List HarvestComment × History × FilterStats :=
  let r := filterComment run_id now acc.2.1 acc.2.2 c
  (if r.1 then acc.1 ++ [c] else acc.1, r.2.1, r.2.2)

/-- The per-video loop of `filter_new_comments_only`: accumulates the
`new_comments_for_video` list. -/
def filterVideoComments (run_id now : String) (prev : History)
    (stats : FilterStats) (comments : List HarvestComment) :
    List HarvestComment × History × FilterStats :=
  comments.foldl (fvcStep run_id now) ([], prev, stats)

/-- One step of the per-channel loop of `filter_new_comments_only`:
keeps a video only when it has new comments. -/
def fchStep (run_id now : String)
    (acc : List (String × FilteredVideo) × History × FilterStats)
    (v : String × VideoData) :
    List (String × FilteredVideo) × History × FilterStats :=
  let r := filterVideoComments run_id now acc.2.1 acc.2.2 (v.2.comments.getD [])
  (if r.1 ≠ [] then acc.1 ++ [(v.1, ⟨v.2.video_info, r.1⟩)] else acc.1,
    r.2.1, r.2.2)

/-- The per-channel loop of `filter_new_comments_only`. -/
def filterChannel (run_id now : String) (prev : History) (stats : FilterStats)
    (videos : List (String × VideoData)) :
    List (String × FilteredVideo) × History × FilterStats :=
  videos.foldl (fchStep run_id now) ([], prev, stats)

/-- One step of the outer channel loop of `filter_new_comments_only`:
a channel whose dict stayed empty is deleted from the output. -/
def fbatchStep (run_id now : String)
    (acc : FilteredBatch × History × FilterStats)
    (ch : String × List (String × VideoData)) :
    FilteredBatch × History × FilterStats :=
  let r := filterChannel run_id now acc.2.1 acc.2.2 ch.2
  (if r.1 ≠ [] then acc.1 ++ [(ch.1, r.1)] else acc.1, r.2.1, r.2.2)

/-- `CommentDeduplicator.filter_new_comments_only`: returns the
new-only tree, the stats, and the updated `previous_comments` history. -/
def filter_new_comments_only (run_id now : String) (prev : History)
    (batch : Batch) : FilteredBatch × FilterStats × History :=
  let r := batch.foldl (fbatchStep run_id now) ([], prev, ⟨0, 0, 0⟩)
  (r.1, r.2.2, r.2.1)

/-- Specification measure (not from the source): the number of items in
a batch whose `comment_id` is missing or empty. -/
def untruthyCount (batch : Batch) : Nat :=
  (batch.map (fun ch =>
    (ch.2.map (fun v =>
      ((v.2.comments.getD []).map
        (fun c => if truthy c.comment_id then 0 else 1)).sum)).sum)).sum

/-! ### comment_processor.py: data model

Instance attribute constants of `CommentThreadProcessor.__init__`. -/

def absolute_quota_reserve : Nat := 10
def priority_max_pages : Nat := 200
def basic_max_pages : Nat := 100
def basic_min_comments : Nat := 5
def max_pages_per_round : Nat := 80
def max_rounds : Nat := 10
def videos_per_round : Nat := 10
def max_top_replies_priority : Nat := 5
def max_top_replies_balanced : Nat := 2

/-- A raw comment resource as delivered by the API (`comment_data` of
`_process_comment_with_keywords`): `id` plus the snippet fields the
method reads. Text fields are consumed only by the out-of-scope text
annotator and are not modelled. -/
structure RawComment where
  id : String
  authorDisplayName : Option String
  likeCount : Option Nat
  publishedAt : Option String
  updatedAt : Option String
  totalReplyCount : Option Nat
deriving Repr, DecidableEq

/-- A processed comment dict as built by
`_process_comment_with_keywords` (the data-flow-relevant fields; the
annotator-derived text/keyword/sentiment fields and the channel title
copies are opaque to every claim). -/
structure PComment where
  comment_id : String
  video_id : String
  parent_id : Option String
  is_reply : Bool
  author : String
  likes : Nat
  publish_date : String
  updated_date : String
  reply_count : Nat
deriving Repr, DecidableEq

/-- `CommentThreadProcessor._process_comment_with_keywords`. -/
def process_comment_with_keywords (comment_data : RawComment)
    (video_id : String) (is_reply : Bool) (parent_id : Option String) : PComment :=
  { comment_id := comment_data.id
    video_id := video_id
    parent_id := parent_id
    is_reply := is_reply
    author := comment_data.authorDisplayName.getD "Unknown"
    likes := comment_data.likeCount.getD 0
    publish_date := comment_data.publishedAt.getD ""
    updated_date := comment_data.updatedAt.getD ""
    reply_count := if is_reply then 0 else comment_data.totalReplyCount.getD 0 }

/-- One item of a `commentThreads().list` response page. `replies` is
`some rs` when the item has a `replies` key with inline comments `rs`. -/
structure ThreadItem where
  id : String
  topLevelComment : RawComment
  totalReplyCount : Nat
  replies : Option (List RawComment)
deriving Repr, DecidableEq

/-- A `commentThreads().list` response page. -/
structure PageResponse where
  items : List ThreadItem
  nextPageToken : Option String
deriving Repr, DecidableEq

/-- The outcome of one `request.execute()` attempt: success, an
`HttpError` (status, whether `str(e)` mentions `commentsDisabled`, and
the error text), or any other exception. -/
inductive CallResult (α : Type) where
  | success (resp : α)
  | httpError (status : Nat) (commentsDisabled : Bool) (msg : String)
  | otherError (msg : String)
deriving Repr

/-- A Python exception as propagated between the embedded functions. -/
inductive PyErr where
  | http (status : Nat) (commentsDisabled : Bool) (msg : String)
  | generic (msg : String)
deriving Repr, DecidableEq

/-- `str(e)` of a propagated exception. -/
def PyErr.message : PyErr → String
  | .http _ _ m => m
  | .generic m => m

/-- The remote service: each request site is a function from the
request parameters and the (0-based) attempt number to that attempt's
outcome. `commentThreads` takes the video id and the page token;
`commentsList` takes the parent comment id. -/
structure ApiEnv where
  commentThreads : String → Option String → Nat → CallResult PageResponse
  commentsList : String → Nat → CallResult (List RawComment)

/-- The retry loop of `CommentThreadProcessor._execute_with_retry`,
starting at `attempt` with `fuel` loop iterations left
(`fuel = MAX_RETRIES - attempt`). A retryable `HttpError` status or a
non-final other exception continues; a non-retryable `HttpError` or a
final other exception re-raises; an exhausted loop raises the generic
failure message. -/
def execute_with_retry_from {α : Type} (exec : Nat → CallResult α) :
    Nat → Nat → Except PyErr α
  | _, 0 => .error (.generic ("Failed after " ++ toString MAX_RETRIES ++ " attempts"))
  | attempt, fuel + 1 =>
    match exec attempt with
    | .success r => .ok r
    | .httpError s d m =>
      if s ∈ RETRY_STATUS_CODES then execute_with_retry_from exec (attempt + 1) fuel
      else .error (.http s d m)
    | .otherError m =>
      if attempt < MAX_RETRIES - 1 then execute_with_retry_from exec (attempt + 1) fuel
      else .error (.generic m)

/-- `CommentThreadProcessor._execute_with_retry`. -/
def execute_with_retry {α : Type} (exec : Nat → CallResult α) : Except PyErr α :=
  execute_with_retry_from exec 0 MAX_RETRIES

/-- Python `sorted(replies, key=lambda x: x.get('likes', 0),
reverse=True)`: a stable sort by like count descending, embedded as an
insertion sort (insertion before the first element with fewer or equal
likes preserves the original order of ties). -/
def pySortByLikesDesc (l : List PComment) : List PComment :=
  l.insertionSort (fun x y => y.likes ≤ x.likes)

/-- The top-K reply selection both fetchers apply per thread:
`sorted_replies[:K]` after the stable descending sort by likes. -/
def top_replies_by_likes (k : Nat) (replies : List PComment) : List PComment :=
  (pySortByLikesDesc replies).take k

instance : IsTotal PComment (fun x y => y.likes ≤ x.likes) :=
  ⟨fun a b => (Nat.le_total b.likes a.likes)⟩

instance : IsTrans PComment (fun x y => y.likes ≤ x.likes) :=
  ⟨fun _ _ _ hab hbc => Nat.le_trans hbc hab⟩

/-- Result dict of the fetchers in priority mode. The
`_get_empty_comment_result` dict carries no
`pages_processed`/`collection_mode`/`has_sufficient_data` keys; callers
read those with `.get` defaults, represented here by `0`/`""`/`false`.
The analysis sub-dicts (`top_comments_analysis`,
`keyword_segmentation`) are annotator/score output opaque to every
claim and are not modelled. -/
structure FetchResult where
  all_comments : List PComment
  total_comments : Nat
  pages_processed : Nat
  collection_mode : String
  analysis_skipped : Bool
  skip_reason : String
  has_sufficient_data : Bool
deriving Repr, DecidableEq

/-- `CommentThreadProcessor._get_empty_comment_result`. -/
def empty_comment_result (reason : String) : FetchResult :=
  { all_comments := []
    total_comments := 0
    pages_processed := 0
    collection_mode := ""
    analysis_skipped := true
    skip_reason := reason
    has_sufficient_data := false }

/-- The normal (non-skip) return value of
`fetch_video_comments_unlimited`. -/
def unlimitedFinish (all_comments : List PComment) (page_count : Nat) : FetchResult :=
  { all_comments := all_comments
    total_comments := all_comments.length
    pages_processed := page_count
    collection_mode := "priority_top5_replies_limited"
    analysis_skipped := false
    skip_reason := ""
    has_sufficient_data := decide (MIN_COMMENTS_THRESHOLD ≤ all_comments.length) }

/-- The per-item body of the priority fetcher's page loop: keep the
top-level comment, pool inline replies, optionally fetch additional
replies (one `comments().list` call whose failure — including a failed
quota charge — is swallowed), then keep the top-5 replies by likes.
`remaining_quota` is the stale value read at the top of the page loop. -/
def processThreadItem (env : ApiEnv) (video_id now : String)
    (remaining_quota : Nat) (acc : List PComment × QuotaState)
    (item : ThreadItem) : List PComment × QuotaState :=
  let top := process_comment_with_keywords item.topLevelComment video_id false none
  let all_comments := acc.1 ++ [top]
  let qs := acc.2
  if item.totalReplyCount > 0 then
    let inline_replies := (item.replies.getD []).map
      (fun rc => process_comment_with_keywords rc video_id true (some item.id))
    let repliesAndState :=
      if inline_replies.length < item.totalReplyCount ∧ 30 < remaining_quota then
        match execute_with_retry (env.commentsList item.id) with
        | .error _ => (inline_replies, qs)
        | .ok additional =>
          let charged := use_quota qs "comments_list" 1
            ("Additional replies for " ++ item.id) now
          match charged.2 with
          | some _ => (inline_replies, charged.1)
          | none =>
            (inline_replies ++ additional.map
              (fun rc => process_comment_with_keywords rc video_id true (some item.id)),
              charged.1)
      else (inline_replies, qs)
    if repliesAndState.1 ≠ [] then
      (all_comments ++ top_replies_by_likes max_top_replies_priority repliesAndState.1,
        repliesAndState.2)
    else (all_comments, repliesAndState.2)
  else (all_comments, qs)

/-- The `while page_count < self.priority_max_pages` loop of
`fetch_video_comments_unlimited`, with
`fuel = priority_max_pages - page_count`. State:
(all_comments, page_token, page_count, quota). -/
def fetch_unlimited_loop (env : ApiEnv) (video_id now : String) :
    Nat → List PComment × Option String × Nat × QuotaState →
    FetchResult × QuotaState
  | 0, (all_comments, _, page_count, qs) =>
    (unlimitedFinish all_comments page_count, qs)
  | fuel + 1, (all_comments, page_token, page_count, qs) =>
    let remaining_quota := get_remaining_quota qs
    if remaining_quota < absolute_quota_reserve then
      (unlimitedFinish all_comments page_count, qs)
    else if ¬ check_quota qs "comment_threads" 1 then
      (unlimitedFinish all_comments page_count, qs)
    else
      match execute_with_retry (env.commentThreads video_id page_token) with
      | .error (.http s disabled m) =>
        if s = 403 ∧ disabled then (empty_comment_result "Comments disabled", qs)
        else (empty_comment_result ("Error: " ++ m), qs)
      | .error (.generic m) => (empty_comment_result ("Error: " ++ m), qs)
      | .ok resp =>
        let charged := use_quota qs "comment_threads" 1
          ("PRIORITY - Video " ++ video_id ++ " page " ++ toString (page_count + 1)) now
        match charged.2 with
        | some m => (empty_comment_result ("Error: " ++ m), charged.1)
        | none =>
          if resp.items.length = 0 then
            (unlimitedFinish all_comments page_count, charged.1)
          else
            let r := resp.items.foldl
              (processThreadItem env video_id now remaining_quota)
              (all_comments, charged.1)
            match resp.nextPageToken with
            | none => (unlimitedFinish r.1 (page_count + 1), r.2)
            | some t =>
              fetch_unlimited_loop env video_id now fuel
                (r.1, some t, page_count + 1, r.2)

/-- `CommentThreadProcessor.fetch_video_comments_unlimited`:
`comment_count` is `video_info.get('comment_count', 0)`. -/
def fetch_video_comments_unlimited (env : ApiEnv) (video_id now : String)
    (comment_count : Nat) (qs : QuotaState) : FetchResult × QuotaState :=
  if comment_count = 0 then (empty_comment_result "No comments", qs)
  else fetch_unlimited_loop env video_id now priority_max_pages ([], none, 0, qs)

/-- One entry of `CommentThreadProcessor.video_processing_state`. The
Python set `collected_comment_ids` is a duplicate-free `List String`
grown by guarded insertion. -/
structure VideoState where
  pages_processed : Nat
  total_comments_collected : Nat
  last_page_token : Option String
  is_complete : Bool
  estimated_comments : Nat
  collected_comment_ids : List String
deriving Repr, DecidableEq

/-- The `video_processing_state` dict: videoId → VideoState. -/
abbrev VideoStates := List (String × VideoState)

/-- `CommentThreadProcessor.init_video_state`. -/
def init_video_state (states : VideoStates) (video_id : String)
    (estimated_comments : Nat) : VideoStates :=
  match dictFind? video_id states with
  | some _ => states
  | none => states ++ [(video_id, ⟨0, 0, none, false, estimated_comments, []⟩)]

/-- Result dict of `fetch_video_comments_balanced`; same conventions as
`FetchResult` for keys absent from the empty-result dict. -/
structure BalancedResult where
  all_comments : List PComment
  total_comments : Nat
  pages_processed_this_round : Nat
  total_pages_processed : Nat
  is_complete : Bool
  collection_mode : String
  analysis_skipped : Bool
  skip_reason : String
  has_sufficient_data : Bool
deriving Repr, DecidableEq

/-- `_get_empty_comment_result` as observed through the balanced
result's keys. -/
def empty_balanced_result (reason : String) : BalancedResult :=
  { all_comments := []
    total_comments := 0
    pages_processed_this_round := 0
    total_pages_processed := 0
    is_complete := false
    collection_mode := ""
    analysis_skipped := true
    skip_reason := reason
    has_sufficient_data := false }

/-- The normal return value of `fetch_video_comments_balanced`. -/
def balancedFinish (all_comments : List PComment) (page_count : Nat)
    (vstate : VideoState) : BalancedResult :=
  { all_comments := all_comments
    total_comments := all_comments.length
    pages_processed_this_round := page_count
    total_pages_processed := vstate.pages_processed
    is_complete := vstate.is_complete
    collection_mode := "balanced_top2_replies"
    analysis_skipped := false
    skip_reason := ""
    has_sufficient_data := decide (MIN_COMMENTS_THRESHOLD ≤ all_comments.length) }

/-- Guarded insertion into (comments, collected ids): the
`if ... not in video_state['collected_comment_ids']` append pattern of
the balanced fetcher. -/
def collectGuarded (acc : List PComment × List String) (c : PComment) :
    List PComment × List String :=
  if c.comment_id ∈ acc.2 then acc
  else (acc.1 ++ [c], acc.2 ++ [c.comment_id])

/-- The per-item body of the balanced fetcher's page loop: guarded
top-level collection plus the top-2 inline replies by likes, each
guarded by the collected-id set. -/
def processThreadItemBalanced (video_id : String)
    (acc : List PComment × List String) (item : ThreadItem) :
    List PComment × List String :=
  let top := process_comment_with_keywords item.topLevelComment video_id false none
  let acc1 := collectGuarded acc top
  if item.totalReplyCount > 0 ∧ item.replies.isSome then
    let available_replies := (item.replies.getD []).map
      (fun rc => process_comment_with_keywords rc video_id true (some item.id))
    if available_replies ≠ [] then
      (top_replies_by_likes max_top_replies_balanced available_replies).foldl
        collectGuarded acc1
    else acc1
  else acc1

/-- The `while page_count < pages_this_round` loop of
`fetch_video_comments_balanced`, with
`fuel = pages_this_round - page_count`. State:
(all_comments, page_token, page_count, quota, video state). -/
def fetch_balanced_loop (env : ApiEnv) (video_id now : String) :
    Nat → List PComment × Option String × Nat × QuotaState × VideoState →
    BalancedResult × QuotaState × VideoState
  | 0, (all_comments, _, page_count, qs, vstate) =>
    (balancedFinish all_comments page_count vstate, qs, vstate)
  | fuel + 1, (all_comments, page_token, page_count, qs, vstate) =>
    let remaining_quota := get_remaining_quota qs
    if remaining_quota < absolute_quota_reserve then
      (balancedFinish all_comments page_count vstate, qs, vstate)
    else if ¬ check_quota qs "comment_threads" 1 then
      (balancedFinish all_comments page_count vstate, qs, vstate)
    else
      match execute_with_retry (env.commentThreads video_id page_token) with
      | .error (.http s disabled m) =>
        if s = 403 ∧ disabled then
          (empty_balanced_result "Comments disabled", qs,
            { vstate with is_complete := true })
        else (empty_balanced_result ("Error: " ++ m), qs, vstate)
      | .error (.generic m) =>
        (empty_balanced_result ("Error: " ++ m), qs, vstate)
      | .ok resp =>
        let charged := use_quota qs "comment_threads" 1
          ("BALANCED - Video " ++ video_id ++ " page "
            ++ toString (vstate.pages_processed + page_count + 1)) now
        match charged.2 with
        | some m => (empty_balanced_result ("Error: " ++ m), charged.1, vstate)
        | none =>
          if resp.items.length = 0 then
            let vstate' := { vstate with is_complete := true }
            (balancedFinish all_comments page_count vstate', charged.1, vstate')
          else
            let r := resp.items.foldl (processThreadItemBalanced video_id)
              (all_comments, vstate.collected_comment_ids)
            let vstate' :=
              { vstate with
                  pages_processed := vstate.pages_processed + 1
                  total_comments_collected :=
                    vstate.total_comments_collected + r.1.length
                  last_page_token := resp.nextPageToken
                  collected_comment_ids := r.2 }
            match resp.nextPageToken with
            | none =>
              let vstate'' := { vstate' with is_complete := true }
              (balancedFinish r.1 (page_count + 1) vstate'', charged.1, vstate'')
            | some t =>
              fetch_balanced_loop env video_id now fuel
                (r.1, some t, page_count + 1, charged.1, vstate')

/-- `CommentThreadProcessor.fetch_video_comments_balanced`:
`comment_count` is the video's estimate; `max_pages_this_round = none`
selects the `max_pages_per_round` default. Returns the result, the
quota state, and the updated `video_processing_state`. -/
def fetch_video_comments_balanced (env : ApiEnv) (video_id now : String)
    (comment_count : Nat) (max_pages_this_round : Option Nat)
    (qs : QuotaState) (states : VideoStates) :
    BalancedResult × QuotaState × VideoStates :=
  if comment_count < basic_min_comments then
    (empty_balanced_result
      ("Too few comments (" ++ toString comment_count ++ ")"), qs, states)
  else
    let states := init_video_state states video_id comment_count
    let vstate := (dictFind? video_id states).getD
      ⟨0, 0, none, false, comment_count, []⟩
    if vstate.is_complete then
      (empty_balanced_result "Video already complete", qs, states)
    else
      let mppr := max_pages_this_round.getD max_pages_per_round
      let pages_remaining := basic_max_pages - vstate.pages_processed
      let pages_this_round := min mppr pages_remaining
      if pages_this_round = 0 then
        (empty_balanced_result "Page limit reached", qs,
          dictSet video_id { vstate with is_complete := true } states)
      else
        let r := fetch_balanced_loop env video_id now pages_this_round
          ([], vstate.last_page_token, 0, qs, vstate)
        (r.1, r.2.1, dictSet video_id r.2.2 states)

/-! ### comment_processor.py: the balanced phase of process_all_videos -/

/-- A video dict as consumed by `process_all_videos` (the fields it
reads). -/
structure VideoInfo where
  video_id : String
  title : String
  comment_count : Nat
deriving Repr, DecidableEq

/-- One channel's entry of `videos_data`. -/
structure ChannelData where
  title : String
  videos : List VideoInfo
deriving Repr, DecidableEq

/-- One video's entry of the `all_comments` accumulator. -/
structure VideoEntry where
  video_info : VideoInfo
  comments : List PComment
  total_comments : Nat
deriving Repr, DecidableEq

/-- The `all_comments` accumulator: channelId → videoId → VideoEntry. -/
abbrev AllComments := List (String × List (String × VideoEntry))

/-- Orchestrator state threaded through the balanced phase. -/
structure OrchState where
  all_comments : AllComments
  qs : QuotaState
  states : VideoStates
deriving Repr

/-- The body of the per-video `for video in videos` loop of a balanced
round: fetch, merge by comment id into the video's accumulated entry,
and count progress. Returns the updated state, the updated
`videos_processed` count, and whether this video made progress. -/
def roundVideoStep (env : ApiEnv) (now channel_id : String)
    (st : OrchState) (video : VideoInfo) : OrchState × Bool :=
  let r := fetch_video_comments_balanced env video.video_id now
    video.comment_count (some max_pages_per_round) st.qs st.states
  let chan := (dictFind? channel_id st.all_comments).getD []
  let chan :=
    match dictFind? video.video_id chan with
    | some _ => chan
    | none => dictSet video.video_id ⟨video, [], 0⟩ chan
  let entry := (dictFind? video.video_id chan).getD ⟨video, [], 0⟩
  let existing_ids := (entry.comments.filter
    (fun c => c.comment_id ≠ "")).map PComment.comment_id
  let new_comments := r.1.all_comments.filter
    (fun c => c.comment_id ≠ "" ∧ c.comment_id ∉ existing_ids)
  let entry :=
    { entry with
        comments := entry.comments ++ new_comments
        total_comments := (entry.comments ++ new_comments).length }
  let chan := dictSet video.video_id entry chan
  ({ all_comments := dictSet channel_id chan st.all_comments
     qs := r.2.1
     states := r.2.2 },
    decide (0 < new_comments.length))

/-- The `for video in videos` loop of a balanced round for one channel,
with its two break conditions (quota floor of 15 and the
`videos_per_round` cap). `progress` is the round-wide `progress_made`
flag. -/
def roundVideosLoop (env : ApiEnv) (now channel_id : String) :
    List VideoInfo → Nat → OrchState × Bool → OrchState × Bool
  | [], _, acc => acc
  | video :: rest, videos_processed, (st, progress) =>
    if get_remaining_quota st.qs < 15 then (st, progress)
    else
      let r := roundVideoStep env now channel_id st video
      let videos_processed' :=
        if r.2 then videos_processed + 1 else videos_processed
      let progress' := progress || r.2
      if videos_per_round ≤ videos_processed' then (r.1, progress')
      else roundVideosLoop env now channel_id rest videos_processed' (r.1, progress')

/-- Python `sorted(videos, key=lambda v: v.get('comment_count', 0),
reverse=True)` (stable descending). -/
def sortVideosByCommentCount (videos : List VideoInfo) : List VideoInfo :=
  videos.insertionSort (fun u v => v.comment_count ≤ u.comment_count)

/-- One balanced round over all remaining (non-priority) channels:
ensures each channel's `all_comments` entry exists, sorts its videos by
comment count, and runs the per-video loop. Returns the state and the
round's `progress_made` flag. -/
def runRound (env : ApiEnv) (now : String)
    (channels : List (String × ChannelData)) (st : OrchState) :
    OrchState × Bool :=
  channels.foldl
    (fun acc ch =>
      let st := acc.1
      let st :=
        match dictFind? ch.1 st.all_comments with
        | some _ => st
        | none => { st with all_comments := dictSet ch.1 [] st.all_comments }
      if ch.2.videos = [] then (st, acc.2)
      else
        roundVideosLoop env now ch.1
          (sortVideosByCommentCount ch.2.videos) 0 (st, acc.2))
    (st, false)

/-- The `while round_number <= self.max_rounds and ... > 30` loop of
Phase 2 of `process_all_videos`, with
`fuel = max_rounds + 1 - round_number`. Returns the trace of executed
rounds as (round number, progress flag) pairs — the printed round
banners — together with the final state. A round without progress
breaks the loop. -/
def roundsLoop (env : ApiEnv) (now : String)
    (channels : List (String × ChannelData)) :
    Nat → Nat → OrchState → List (Nat × Bool) × OrchState
  | 0, _, st => ([], st)
  | fuel + 1, round_number, st =>
    if round_number ≤ max_rounds ∧ 30 < get_remaining_quota st.qs then
      let r := runRound env now channels st
      if r.2 then
        let rest := roundsLoop env now channels fuel (round_number + 1) r.1
        ((round_number, true) :: rest.1, rest.2)
      else ([(round_number, false)], r.1)
    else ([], st)

/-- Phase 2 of `CommentThreadProcessor.process_all_videos` (the
balanced multi-round loop over the non-priority channels), entered with
the accumulator and quota state Phase 1 left behind. -/
def process_balanced_phase (env : ApiEnv) (now : String)
    (channels : List (String × ChannelData)) (st : OrchState) :
    List (Nat × Bool) × OrchState :=
  roundsLoop env now channels max_rounds 1 st

/-- Specification predicate (not from the source) for the balanced
collector's accumulator (comments, collected-id set) relative to the
id set `start` held at the start of the current call: the start set is
still contained, the collected comment ids are duplicate-free, and each
collected comment's id is in the set but not in `start`. -/
def CollectInv (start : List String) (p : List PComment × List String) : Prop :=
  (∀ i ∈ start, i ∈ p.2)
  ∧ (p.1.map PComment.comment_id).Nodup
  ∧ (∀ c ∈ p.1, c.comment_id ∈ p.2)
  ∧ (∀ c ∈ p.1, c.comment_id ∉ start)

/-- The collected-id set of `video_id`'s resume state, `[]` when no
state exists yet (specification accessor, not from the source). -/
def collectedIds (video_id : String) (states : VideoStates) : List String :=
  ((dictFind? video_id states).map VideoState.collected_comment_ids).getD []

/-- Specification harness (not from the source): runs
`fetch_video_comments_balanced` once per round environment for one
video, threading the quota and resume state exactly as one process run
does, and collects each round's returned comment lists. -/
def run_balanced_rounds (envs : List ApiEnv) (video_id now : String)
    (comment_count : Nat) (qs : QuotaState) (states : VideoStates) :
    List (List PComment) × QuotaState × VideoStates :=
  match envs with
  | [] => ([], qs, states)
  | e :: rest =>
    let r := fetch_video_comments_balanced e video_id now comment_count none qs states
    let rr := run_balanced_rounds rest video_id now comment_count r.2.1 r.2.2
    (r.1.all_comments :: rr.1, rr.2)

end CommentsYoutube

namespace CommentsYoutube

/-! ### Theorems about the quota ledger -/

/-- **C1.** If `check_quota` returns true then the immediately following
`use_quota` with the same arguments succeeds; `use_quota` fails exactly
when `used + cost(kind)` exceeds the capacity, and on failure it leaves
the state (both `quota_used` and `operation_log`) unchanged; on success
it increments `quota_used` by the operation cost, appends one log entry,
and leaves `quota_used ≤ QUOTA_LIMIT_PER_DAY`. -/
theorem use_quota_spec (st : QuotaState) (op : String) (cost : Nat)
    (descr now : String) :
    (check_quota st op cost = true → (use_quota st op cost descr now).2 = none)
    ∧ ((use_quota st op cost descr now).2.isSome ↔
        QUOTA_LIMIT_PER_DAY < st.quota_used + actual_cost op cost)
    ∧ ((use_quota st op cost descr now).2.isSome →
        (use_quota st op cost descr now).1 = st)
    ∧ ((use_quota st op cost descr now).2 = none →
        (use_quota st op cost descr now).1.quota_used
            = st.quota_used + actual_cost op cost
        ∧ (use_quota st op cost descr now).1.operation_log
            = st.operation_log ++
              [⟨now, op, actual_cost op cost, descr,
                st.quota_used + actual_cost op cost⟩]
        ∧ (use_quota st op cost descr now).1.quota_used ≤ QUOTA_LIMIT_PER_DAY) := by
  unfold use_quota check_quota
  by_cases h : st.quota_used + actual_cost op cost ≤ QUOTA_LIMIT_PER_DAY
  · simp [h]
  · simp [h]
    omega

/-- Witness for `use_quota_spec`: a concrete affordable charge goes
through. -/
theorem use_quota_spec_witness :
    (use_quota ⟨0, 0, []⟩ "comment_threads" 1 "d" "t").2 = none :=
  (use_quota_spec ⟨0, 0, []⟩ "comment_threads" 1 "d" "t").1 (by decide)

/-- **C2.** Loading a stored quota snapshot whose `last_reset` date is
strictly before today yields `quota_used = 0` and an empty
`operation_log`. -/
theorem load_quota_state_reset (data : StoredQuota) (today : Nat)
    (st0 : QuotaState) (d : Nat) (hd : data.last_reset = some d)
    (hlt : d < today) :
    (load_quota_state (some data) today st0).quota_used = 0
    ∧ (load_quota_state (some data) today st0).operation_log = [] := by
  unfold load_quota_state
  simp [hd, hlt]

/-- Witness for `load_quota_state_reset` at a concrete stale snapshot. -/
theorem load_quota_state_reset_witness :
    (load_quota_state (some ⟨some 7, some 3, some []⟩) 5 ⟨0, 0, []⟩).quota_used = 0
    ∧ (load_quota_state (some ⟨some 7, some 3, some []⟩) 5 ⟨0, 0, []⟩).operation_log = [] :=
  load_quota_state_reset ⟨some 7, some 3, some []⟩ 5 ⟨0, 0, []⟩ 3 rfl (by decide)

/-! ### Association-list lemmas -/

theorem dictFind?_append_of_isSome {β : Type} (k : String) (h t : List (String × β))
    (hs : (dictFind? k h).isSome) : dictFind? k (h ++ t) = dictFind? k h := by
  induction h with
  | nil => simp [dictFind?] at hs
  | cons a h ih =>
    by_cases hk : a.1 = k
    · simp [dictFind?, hk]
    · simp only [dictFind?, hk, if_false, List.cons_append] at hs ⊢
      exact ih hs

theorem dictFind?_append_of_eq_none {β : Type} (k : String)
    (h t : List (String × β)) (hn : dictFind? k h = none) :
    dictFind? k (h ++ t) = dictFind? k t := by
  induction h with
  | nil => simp
  | cons a h ih =>
    by_cases hk : a.1 = k
    · simp [dictFind?, hk] at hn
    · simp only [dictFind?, hk, if_false, List.cons_append] at hn ⊢
      exact ih hn

theorem dictFind?_dictSet {β : Type} (k k' : String) (v : β)
    (h : List (String × β)) :
    dictFind? k (dictSet k' v h) = if k' = k then some v else dictFind? k h := by
  induction h with
  | nil => simp [dictFind?, dictSet]
  | cons a h ih =>
    by_cases hk : a.1 = k'
    · simp only [dictSet, hk, if_true, dictFind?]
      by_cases hkk : k' = k <;> simp [hkk, hk]
    · simp only [dictSet, hk, if_false, dictFind?]
      by_cases hak : a.1 = k
      · have : ¬ k' = k := fun he => hk (he ▸ hak)
        simp [hak, this]
      · simp [hak, ih]

/-! ### Per-comment lemmas about `filterComment` -/

theorem filterComment_preserves (run_id now : String) (prev : History)
    (stats : FilterStats) (c : HarvestComment) (k : String)
    (hs : (dictFind? k prev).isSome) :
    (dictFind? k (filterComment run_id now prev stats c).2.1).isSome := by
  simp only [filterComment]
  by_cases h1 : truthy c.comment_id = true ∧ dictFind? (c.comment_id.getD "") prev = none
  · rw [if_pos h1]
    simp only [dictFind?_append_of_isSome k prev _ hs]
    exact hs
  · rw [if_neg h1]
    by_cases h2 : truthy c.comment_id = true ∧ (dictFind? (c.comment_id.getD "") prev).isSome
    · rw [dif_pos h2]
      by_cases h3 : run_id ∈ ((dictFind? (c.comment_id.getD "") prev).get h2.2).collection_history
      · rw [if_pos h3]; exact hs
      · rw [if_neg h3]
        simp only [dictFind?_dictSet]
        by_cases hk : c.comment_id.getD "" = k <;> simp [hk, hs]
    · rw [dif_neg h2]; exact hs

theorem filterComment_knows (run_id now : String) (prev : History)
    (stats : FilterStats) (c : HarvestComment)
    (ht : truthy c.comment_id = true) :
    (dictFind? (c.comment_id.getD "")
      (filterComment run_id now prev stats c).2.1).isSome := by
  simp only [filterComment]
  by_cases h1 : truthy c.comment_id = true ∧ dictFind? (c.comment_id.getD "") prev = none
  · rw [if_pos h1]
    rw [dictFind?_append_of_eq_none _ _ _ h1.2]
    simp [dictFind?]
  · rw [if_neg h1]
    have h2 : truthy c.comment_id = true ∧
        (dictFind? (c.comment_id.getD "") prev).isSome := by
      rcases Option.eq_none_or_eq_some (dictFind? (c.comment_id.getD "") prev) with h | ⟨v, h⟩
      · exact absurd ⟨ht, h⟩ h1
      · exact ⟨ht, by simp [h]⟩
    rw [dif_pos h2]
    by_cases h3 : run_id ∈ ((dictFind? (c.comment_id.getD "") prev).get h2.2).collection_history
    · rw [if_pos h3]; exact h2.2
    · rw [if_neg h3]
      simp [dictFind?_dictSet]

theorem filterComment_dup (run_id now : String) (prev : History)
    (stats : FilterStats) (c : HarvestComment)
    (hk : truthy c.comment_id = true →
      (dictFind? (c.comment_id.getD "") prev).isSome) :
    (filterComment run_id now prev stats c).1 = false
    ∧ (filterComment run_id now prev stats c).2.2.new_comments
        = stats.new_comments := by
  simp only [filterComment]
  have h1 : ¬ (truthy c.comment_id = true
      ∧ dictFind? (c.comment_id.getD "") prev = none) := by
    rintro ⟨ht, hn⟩
    have := hk ht
    rw [hn] at this
    simp at this
  rw [if_neg h1]
  by_cases h2 : truthy c.comment_id = true ∧ (dictFind? (c.comment_id.getD "") prev).isSome
  · rw [dif_pos h2]
    by_cases h3 : run_id ∈ ((dictFind? (c.comment_id.getD "") prev).get h2.2).collection_history
    · rw [if_pos h3]; exact ⟨rfl, rfl⟩
    · rw [if_neg h3]; exact ⟨rfl, rfl⟩
  · rw [dif_neg h2]; exact ⟨rfl, rfl⟩

theorem filterComment_new_truthy (run_id now : String) (prev : History)
    (stats : FilterStats) (c : HarvestComment)
    (hnew : (filterComment run_id now prev stats c).1 = true) :
    truthy c.comment_id = true := by
  by_contra ht
  exact absurd ((filterComment_dup run_id now prev stats c
    (fun h => absurd h ht)).1 ▸ hnew) (by simp)

theorem filterComment_dup_count (run_id now : String) (prev : History)
    (stats : FilterStats) (c : HarvestComment) :
    stats.duplicates_filtered
      + (if truthy c.comment_id then 0 else 1)
    ≤ (filterComment run_id now prev stats c).2.2.duplicates_filtered := by
  simp only [filterComment]
  by_cases h1 : truthy c.comment_id = true ∧ dictFind? (c.comment_id.getD "") prev = none
  · rw [if_pos h1]
    simp [h1.1]
  · rw [if_neg h1]
    by_cases h2 : truthy c.comment_id = true ∧ (dictFind? (c.comment_id.getD "") prev).isSome
    · rw [dif_pos h2]
      by_cases h3 : run_id ∈ ((dictFind? (c.comment_id.getD "") prev).get h2.2).collection_history
      · rw [if_pos h3]; split <;> simp
      · rw [if_neg h3]; split <;> simp
    · rw [dif_neg h2]; split <;> simp

/-! ### Fold lemmas for the filter loops -/

theorem fvc_fold_preserves (run_id now : String) (cs : List HarvestComment)
    (acc : List HarvestComment × History × FilterStats) (k : String)
    (hs : (dictFind? k acc.2.1).isSome) :
    (dictFind? k ((cs.foldl (fvcStep run_id now) acc)).2.1).isSome := by
  induction cs generalizing acc with
  | nil => exact hs
  | cons c cs ih =>
    exact ih _ (filterComment_preserves run_id now acc.2.1 acc.2.2 c k hs)

theorem fvc_fold_knows (run_id now : String) (cs : List HarvestComment)
    (acc : List HarvestComment × History × FilterStats) (c : HarvestComment)
    (hc : c ∈ cs) (ht : truthy c.comment_id = true) :
    (dictFind? (c.comment_id.getD "")
      ((cs.foldl (fvcStep run_id now) acc)).2.1).isSome := by
  induction cs generalizing acc with
  | nil => cases hc
  | cons d cs ih =>
    rcases List.mem_cons.mp hc with h | h
    · subst h
      exact fvc_fold_preserves run_id now cs _ _
        (filterComment_knows run_id now acc.2.1 acc.2.2 c ht)
    · exact ih _ h

theorem fvc_fold_dup (run_id now : String) (cs : List HarvestComment)
    (acc : List HarvestComment × History × FilterStats)
    (hk : ∀ c ∈ cs, truthy c.comment_id = true →
      (dictFind? (c.comment_id.getD "") acc.2.1).isSome) :
    (cs.foldl (fvcStep run_id now) acc).1 = acc.1
    ∧ (cs.foldl (fvcStep run_id now) acc).2.2.new_comments
        = acc.2.2.new_comments := by
  induction cs generalizing acc with
  | nil => exact ⟨rfl, rfl⟩
  | cons c cs ih =>
    have hd := filterComment_dup run_id now acc.2.1 acc.2.2 c
      (hk c (List.mem_cons_self c cs))
    have step : fvcStep run_id now acc c
        = (acc.1, (filterComment run_id now acc.2.1 acc.2.2 c).2.1,
            (filterComment run_id now acc.2.1 acc.2.2 c).2.2) := by
      simp [fvcStep, hd.1]
    have ih' := ih (fvcStep run_id now acc c)
      (by
        intro d hdm htd
        rw [step]
        exact filterComment_preserves run_id now acc.2.1 acc.2.2 c _
          (hk d (List.mem_cons_of_mem c hdm) htd))
    refine ⟨?_, ?_⟩
    · rw [List.foldl_cons, ih'.1, step]
    · rw [List.foldl_cons, ih'.2, step, hd.2]

theorem fvc_fold_kept_truthy (run_id now : String) (cs : List HarvestComment)
    (acc : List HarvestComment × History × FilterStats) (c : HarvestComment)
    (hc : c ∈ (cs.foldl (fvcStep run_id now) acc).1) :
    c ∈ acc.1 ∨ truthy c.comment_id = true := by
  induction cs generalizing acc with
  | nil => exact Or.inl hc
  | cons d cs ih =>
    rcases ih _ hc with h | h
    · simp only [fvcStep] at h
      split at h
      · rcases List.mem_append.mp h with h | h
        · exact Or.inl h
        · right
          rcases List.mem_singleton.mp h with rfl
          exact filterComment_new_truthy run_id now acc.2.1 acc.2.2 c (by assumption)
      · exact Or.inl h
    · exact Or.inr h

theorem fvc_fold_dup_count (run_id now : String) (cs : List HarvestComment)
    (acc : List HarvestComment × History × FilterStats) :
    acc.2.2.duplicates_filtered
      + (cs.map (fun c => if truthy c.comment_id then 0 else 1)).sum
    ≤ (cs.foldl (fvcStep run_id now) acc).2.2.duplicates_filtered := by
  induction cs generalizing acc with
  | nil => simp
  | cons c cs ih =>
    have h1 := filterComment_dup_count run_id now acc.2.1 acc.2.2 c
    have h2 := ih (fvcStep run_id now acc c)
    have : (fvcStep run_id now acc c).2.2
        = (filterComment run_id now acc.2.1 acc.2.2 c).2.2 := by
      simp [fvcStep]
    rw [this] at h2
    simp only [List.foldl_cons, List.map_cons, List.sum_cons]
    omega

theorem fch_fold_preserves (run_id now : String)
    (videos : List (String × VideoData))
    (acc : List (String × FilteredVideo) × History × FilterStats) (k : String)
    (hs : (dictFind? k acc.2.1).isSome) :
    (dictFind? k ((videos.foldl (fchStep run_id now) acc)).2.1).isSome := by
  induction videos generalizing acc with
  | nil => exact hs
  | cons v videos ih =>
    refine ih _ ?_
    simp only [fchStep, filterVideoComments]
    exact fvc_fold_preserves run_id now _ ([], acc.2.1, acc.2.2) k hs

theorem fch_fold_knows (run_id now : String)
    (videos : List (String × VideoData))
    (acc : List (String × FilteredVideo) × History × FilterStats)
    (v : String × VideoData) (hv : v ∈ videos) (c : HarvestComment)
    (hc : c ∈ v.2.comments.getD []) (ht : truthy c.comment_id = true) :
    (dictFind? (c.comment_id.getD "")
      ((videos.foldl (fchStep run_id now) acc)).2.1).isSome := by
  induction videos generalizing acc with
  | nil => cases hv
  | cons w videos ih =>
    rcases List.mem_cons.mp hv with h | h
    · subst h
      refine fch_fold_preserves run_id now videos _ _ ?_
      simp only [fchStep, filterVideoComments]
      exact fvc_fold_knows run_id now _ ([], acc.2.1, acc.2.2) c hc ht
    · exact ih _ h


theorem fch_fold_dup (run_id now : String)
    (videos : List (String × VideoData))
    (acc : List (String × FilteredVideo) × History × FilterStats)
    (hk : ∀ v ∈ videos, ∀ c ∈ v.2.comments.getD [],
      truthy c.comment_id = true →
      (dictFind? (c.comment_id.getD "") acc.2.1).isSome) :
    (videos.foldl (fchStep run_id now) acc).1 = acc.1
    ∧ (videos.foldl (fchStep run_id now) acc).2.2.new_comments
        = acc.2.2.new_comments := by
  induction videos generalizing acc with
  | nil => exact ⟨rfl, rfl⟩
  | cons v videos ih =>
    have hd := fvc_fold_dup run_id now (v.2.comments.getD [])
      ([], acc.2.1, acc.2.2) (hk v (List.mem_cons_self v videos))
    have step : fchStep run_id now acc v
        = (acc.1,
            ((v.2.comments.getD []).foldl (fvcStep run_id now)
              ([], acc.2.1, acc.2.2)).2.1,
            ((v.2.comments.getD []).foldl (fvcStep run_id now)
              ([], acc.2.1, acc.2.2)).2.2) := by
      simp [fchStep, filterVideoComments, hd.1]
    have ih' := ih (fchStep run_id now acc v)
      (by
        intro w hwm d hdm htd
        rw [step]
        exact fvc_fold_preserves run_id now _ ([], acc.2.1, acc.2.2) _
          (hk w (List.mem_cons_of_mem v hwm) d hdm htd))
    refine ⟨?_, ?_⟩
    · rw [List.foldl_cons, ih'.1, step]
    · rw [List.foldl_cons, ih'.2, step, hd.2]

theorem fch_fold_kept_truthy (run_id now : String)
    (videos : List (String × VideoData))
    (acc : List (String × FilteredVideo) × History × FilterStats)
    (e : String × FilteredVideo)
    (he : e ∈ (videos.foldl (fchStep run_id now) acc).1) :
    e ∈ acc.1 ∨ ∀ c ∈ e.2.comments, truthy c.comment_id = true := by
  induction videos generalizing acc with
  | nil => exact Or.inl he
  | cons v videos ih =>
    rcases ih _ he with h | h
    · simp only [fchStep] at h
      split at h
      · rcases List.mem_append.mp h with h | h
        · exact Or.inl h
        · right
          rcases List.mem_singleton.mp h with rfl
          intro c hc
          rcases fvc_fold_kept_truthy run_id now _ _ c hc with h' | h'


          · cases h'
          · exact h'
      · exact Or.inl h
    · exact Or.inr h

theorem fch_fold_dup_count (run_id now : String)
    (videos : List (String × VideoData))
    (acc : List (String × FilteredVideo) × History × FilterStats) :
    acc.2.2.duplicates_filtered
      + (videos.map (fun v =>
          ((v.2.comments.getD []).map
            (fun c => if truthy c.comment_id then 0 else 1)).sum)).sum
    ≤ (videos.foldl (fchStep run_id now) acc).2.2.duplicates_filtered := by
  induction videos generalizing acc with
  | nil => simp
  | cons v videos ih =>
    have h1 := fvc_fold_dup_count run_id now (v.2.comments.getD [])
      ([], acc.2.1, acc.2.2)
    have hb : (([], acc.2.1, acc.2.2) :
        List HarvestComment × History × FilterStats).2.2 = acc.2.2 := rfl
    rw [hb] at h1
    have h2 := ih (fchStep run_id now acc v)
    have : (fchStep run_id now acc v).2.2
        = ((v.2.comments.getD []).foldl (fvcStep run_id now)
            ([], acc.2.1, acc.2.2)).2.2 := by
      simp [fchStep, filterVideoComments]
    rw [this] at h2
    simp only [List.foldl_cons, List.map_cons, List.sum_cons]
    omega

theorem fb_fold_preserves (run_id now : String) (batch : Batch)
    (acc : FilteredBatch × History × FilterStats) (k : String)
    (hs : (dictFind? k acc.2.1).isSome) :
    (dictFind? k ((batch.foldl (fbatchStep run_id now) acc)).2.1).isSome := by
  induction batch generalizing acc with
  | nil => exact hs
  | cons ch batch ih =>
    refine ih _ ?_
    simp only [fbatchStep, filterChannel]
    exact fch_fold_preserves run_id now _ ([], acc.2.1, acc.2.2) k hs

theorem fb_fold_knows (run_id now : String) (batch : Batch)
    (acc : FilteredBatch × History × FilterStats)
    (ch : String × List (String × VideoData)) (hch : ch ∈ batch)
    (v : String × VideoData) (hv : v ∈ ch.2) (c : HarvestComment)
    (hc : c ∈ v.2.comments.getD []) (ht : truthy c.comment_id = true) :
    (dictFind? (c.comment_id.getD "")
      ((batch.foldl (fbatchStep run_id now) acc)).2.1).isSome := by
  induction batch generalizing acc with
  | nil => cases hch
  | cons ch' batch ih =>
    rcases List.mem_cons.mp hch with h | h
    · subst h
      refine fb_fold_preserves run_id now batch _ _ ?_
      simp only [fbatchStep, filterChannel]
      exact fch_fold_knows run_id now _ ([], acc.2.1, acc.2.2) v hv c hc ht
    · exact ih _ h

theorem fb_fold_dup (run_id now : String) (batch : Batch)
    (acc : FilteredBatch × History × FilterStats)
    (hk : ∀ ch ∈ batch, ∀ v ∈ ch.2, ∀ c ∈ v.2.comments.getD [],
      truthy c.comment_id = true →
      (dictFind? (c.comment_id.getD "") acc.2.1).isSome) :
    (batch.foldl (fbatchStep run_id now) acc).1 = acc.1
    ∧ (batch.foldl (fbatchStep run_id now) acc).2.2.new_comments
        = acc.2.2.new_comments := by
  induction batch generalizing acc with
  | nil => exact ⟨rfl, rfl⟩
  | cons ch batch ih =>
    have hd := fch_fold_dup run_id now ch.2 ([], acc.2.1, acc.2.2)
      (hk ch (List.mem_cons_self ch batch))
    have step : fbatchStep run_id now acc ch
        = (acc.1,
            (ch.2.foldl (fchStep run_id now) ([], acc.2.1, acc.2.2)).2.1,
            (ch.2.foldl (fchStep run_id now) ([], acc.2.1, acc.2.2)).2.2) := by
      simp [fbatchStep, filterChannel, hd.1]
    have ih' := ih (fbatchStep run_id now acc ch)
      (by
        intro ch' hchm w hwm d hdm htd
        rw [step]
        exact fch_fold_preserves run_id now _ ([], acc.2.1, acc.2.2) _
          (hk ch' (List.mem_cons_of_mem ch hchm) w hwm d hdm htd))
    refine ⟨?_, ?_⟩
    · rw [List.foldl_cons, ih'.1, step]
    · rw [List.foldl_cons, ih'.2, step, hd.2]

theorem fb_fold_kept_truthy (run_id now : String) (batch : Batch)
    (acc : FilteredBatch × History × FilterStats)
    (e : String × List (String × FilteredVideo))
    (he : e ∈ (batch.foldl (fbatchStep run_id now) acc).1) :
    e ∈ acc.1
    ∨ ∀ v ∈ e.2, ∀ c ∈ v.2.comments, truthy c.comment_id = true := by
  induction batch generalizing acc with
  | nil => exact Or.inl he
  | cons ch batch ih =>
    rcases ih _ he with h | h
    · simp only [fbatchStep] at h
      split at h
      · rcases List.mem_append.mp h with h | h
        · exact Or.inl h
        · right
          rcases List.mem_singleton.mp h with rfl
          intro v hv c hc
          rcases fch_fold_kept_truthy run_id now _ _ v hv with h' | h'
          · cases h'
          · exact h' c hc
      · exact Or.inl h
    · exact Or.inr h

theorem fb_fold_dup_count (run_id now : String) (batch : Batch)
    (acc : FilteredBatch × History × FilterStats) :
    acc.2.2.duplicates_filtered + untruthyCount batch
    ≤ (batch.foldl (fbatchStep run_id now) acc).2.2.duplicates_filtered := by
  induction batch generalizing acc with
  | nil => simp [untruthyCount]
  | cons ch batch ih =>
    have h1 := fch_fold_dup_count run_id now ch.2 ([], acc.2.1, acc.2.2)
    have hb : (([], acc.2.1, acc.2.2) :
        List (String × FilteredVideo) × History × FilterStats).2.2 = acc.2.2 := rfl
    rw [hb] at h1
    have h2 := ih (fbatchStep run_id now acc ch)
    have : (fbatchStep run_id now acc ch).2.2
        = (ch.2.foldl (fchStep run_id now) ([], acc.2.1, acc.2.2)).2.2 := by
      simp [fbatchStep, filterChannel]
    rw [this] at h2
    have hu : untruthyCount (ch :: batch)
        = (ch.2.map (fun v =>
            ((v.2.comments.getD []).map
              (fun c => if truthy c.comment_id then 0 else 1)).sum)).sum
          + untruthyCount batch := rfl
    rw [List.foldl_cons, hu]
    omega

/-- **C3.** Running `filter_new_comments_only` twice on the same batch
against the same deduplicator yields zero new items the second time:
every item of the batch whose id is truthy is in the history once the
first run finishes, so the second run reports `new_comments = 0` and
returns an empty output tree. -/
theorem filter_new_comments_only_idempotent (run_id now run_id2 now2 : String)
    (prev : History) (batch : Batch) :
    (∀ ch ∈ batch, ∀ v ∈ ch.2, ∀ c ∈ v.2.comments.getD [],
        truthy c.comment_id = true →
        (dictFind? (c.comment_id.getD "")
          (filter_new_comments_only run_id now prev batch).2.2).isSome)
    ∧ (filter_new_comments_only run_id2 now2
        (filter_new_comments_only run_id now prev batch).2.2 batch).2.1.new_comments
        = 0
    ∧ (filter_new_comments_only run_id2 now2
        (filter_new_comments_only run_id now prev batch).2.2 batch).1
        = [] := by
  have hknows : ∀ ch ∈ batch, ∀ v ∈ ch.2, ∀ c ∈ v.2.comments.getD [],
      truthy c.comment_id = true →
      (dictFind? (c.comment_id.getD "")
        (filter_new_comments_only run_id now prev batch).2.2).isSome := by
    intro ch hch v hv c hc ht
    simp only [filter_new_comments_only]
    exact fb_fold_knows run_id now batch ([], prev, ⟨0, 0, 0⟩) ch hch v hv c hc ht
  have hd := fb_fold_dup run_id2 now2 batch
    ([], (batch.foldl (fbatchStep run_id now) ([], prev, ⟨0, 0, 0⟩)).2.1, ⟨0, 0, 0⟩)
    (by
      intro ch hch v hv c hc ht
      exact fb_fold_knows run_id now batch ([], prev, ⟨0, 0, 0⟩) ch hch v hv c hc ht)
  refine ⟨hknows, ?_, ?_⟩
  · simp only [filter_new_comments_only]
    exact hd.2
  · simp only [filter_new_comments_only]
    exact hd.1

/-- Witness for `filter_new_comments_only_idempotent` on a one-comment
batch: the first run records id "A", and the second run keeps nothing. -/
theorem filter_new_comments_only_idempotent_witness :
    (dictFind? "A"
      (filter_new_comments_only "r1" "t1" []
        [("c1", [("v1", ⟨none, some [⟨some "A", none, none⟩]⟩)])]).2.2).isSome
    ∧ (filter_new_comments_only "r2" "t2"
        (filter_new_comments_only "r1" "t1" []
          [("c1", [("v1", ⟨none, some [⟨some "A", none, none⟩]⟩)])]).2.2
        [("c1", [("v1", ⟨none, some [⟨some "A", none, none⟩]⟩)])]).1 = [] := by
  refine ⟨?_, ?_⟩
  · exact (filter_new_comments_only_idempotent "r1" "t1" "r2" "t2" []
      [("c1", [("v1", ⟨none, some [⟨some "A", none, none⟩]⟩)])]).1
      ("c1", [("v1", ⟨none, some [⟨some "A", none, none⟩]⟩)]) (by decide)
      ("v1", ⟨none, some [⟨some "A", none, none⟩]⟩) (by decide)
      ⟨some "A", none, none⟩ (by decide) (by decide)
  · exact (filter_new_comments_only_idempotent "r1" "t1" "r2" "t2" []
      [("c1", [("v1", ⟨none, some [⟨some "A", none, none⟩]⟩)])]).2.2

/-- **C9.** `filter_new_comments_only` never emits an item with a
missing or empty `comment_id` as new: every comment in the output tree
has a truthy id, and every missing/empty-id item of the batch is
counted in `duplicates_filtered`. -/
theorem filter_new_comments_only_untruthy_excluded (run_id now : String)
    (prev : History) (batch : Batch) :
    (∀ ch ∈ (filter_new_comments_only run_id now prev batch).1,
        ∀ v ∈ ch.2, ∀ c ∈ v.2.comments, truthy c.comment_id = true)
    ∧ untruthyCount batch
        ≤ (filter_new_comments_only run_id now prev batch).2.1.duplicates_filtered := by
  refine ⟨?_, ?_⟩
  · intro ch hch v hv c hc
    simp only [filter_new_comments_only] at hch
    rcases fb_fold_kept_truthy run_id now batch _ ch hch with h | h
    · cases h
    · exact h v hv c hc
  · simp only [filter_new_comments_only]
    have := fb_fold_dup_count run_id now batch ([], prev, ⟨0, 0, 0⟩)
    simpa using this

/-- Witness for `filter_new_comments_only_untruthy_excluded` on a batch
holding one empty-id item and one real item. -/
theorem filter_new_comments_only_untruthy_excluded_witness :
    truthy (some "A") = true
    ∧ untruthyCount
        [("c1", [("v1", ⟨none, some [⟨some "", none, none⟩, ⟨some "A", none, none⟩]⟩)])]
      ≤ (filter_new_comments_only "r1" "t1" []
          [("c1", [("v1", ⟨none, some [⟨some "", none, none⟩, ⟨some "A", none, none⟩]⟩)])]).2.1.duplicates_filtered := by
  refine ⟨?_, ?_⟩
  · exact (filter_new_comments_only_untruthy_excluded "r1" "t1" []
      [("c1", [("v1", ⟨none, some [⟨some "", none, none⟩, ⟨some "A", none, none⟩]⟩)])]).1
      ("c1", [("v1", ⟨none, [⟨some "A", none, none⟩]⟩)]) (by decide)
      ("v1", ⟨none, [⟨some "A", none, none⟩]⟩) (by decide)
      ⟨some "A", none, none⟩ (by decide)
  · exact (filter_new_comments_only_untruthy_excluded "r1" "t1" []
      [("c1", [("v1", ⟨none, some [⟨some "", none, none⟩, ⟨some "A", none, none⟩]⟩)])]).2

/-- Counterexample for **C4** as stated: in the two-file rebuild
scenario the record of item "A" has `first_collected` equal to the
item's stored `publish_date`, which is not the embedded timestamp of
either filename — first-seen is not derived from filename timestamps. -/
theorem rebuild_first_seen_counterexample :
    (dictFind? "A" (rebuild_from_previous_runs
      [⟨"comments_20240101_120000",
        [("v1", ⟨some [⟨some "A", some "2023-03-03T10:00:00", some "u1", some "v1"⟩,
                       ⟨some "B", some "2023-03-04T10:00:00", some "u2", some "v1"⟩]⟩)]⟩,
       ⟨"comments_20240102_130000.json",
        [("v2", ⟨some [⟨some "B", some "2023-03-04T10:00:00", some "u2", some "v2"⟩,
                       ⟨some "C", some "2023-03-05T10:00:00", some "u3", some "v2"⟩]⟩)]⟩])).map
      DedupRecord.first_collected = some "2023-03-03T10:00:00"
    ∧ "2023-03-03T10:00:00" ≠ file_timestamp "comments_20240101_120000"
    ∧ "2023-03-03T10:00:00" ≠ file_timestamp "comments_20240102_130000.json" := by
  exact ⟨by decide, by decide, by decide⟩

/-- **C4 (amended).** With no ledger present and two prior harvest
files holding item ids {A,B} and {B,C}, the rebuilt ledger has exactly
the keys A, B, C; each record's `last_collected` and
`collection_history` are the filename-embedded timestamps of the files
holding the item, while `first_collected` is the item's stored publish
date (from its first occurrence; empty if absent). -/
theorem rebuild_two_files_spec
    (s1 s2 a b c v1 v2 : String) (cA cB cB' cC : StoredComment)
    (hA : cA.comment_id = some a) (hB : cB.comment_id = some b)
    (hB' : cB'.comment_id = some b) (hC : cC.comment_id = some c)
    (ha : a ≠ "") (hb : b ≠ "") (hc : c ≠ "")
    (hab : a ≠ b) (hac : a ≠ c) (hbc : b ≠ c)
    (hts : file_timestamp s1 ≠ file_timestamp s2) :
    rebuild_from_previous_runs
      [⟨s1, [(v1, ⟨some [cA, cB]⟩)]⟩, ⟨s2, [(v2, ⟨some [cB', cC]⟩)]⟩]
    = [(a, ⟨cA.publish_date.getD "", file_timestamp s1, [file_timestamp s1],
            cA.author.getD "Unknown", cA.video_id.getD ""⟩),
       (b, ⟨cB.publish_date.getD "", file_timestamp s2,
            [file_timestamp s1, file_timestamp s2],
            cB.author.getD "Unknown", cB.video_id.getD ""⟩),
       (c, ⟨cC.publish_date.getD "", file_timestamp s2, [file_timestamp s2],
            cC.author.getD "Unknown", cC.video_id.getD ""⟩)] := by
  have e1 : rebuildComment (file_timestamp s1) [] cA
      = [(a, ⟨cA.publish_date.getD "", file_timestamp s1, [file_timestamp s1],
              cA.author.getD "Unknown", cA.video_id.getD ""⟩)] := by
    simp [rebuildComment, hA, truthy, ha, dictFind?]
  have e2 : rebuildComment (file_timestamp s1)
      [(a, ⟨cA.publish_date.getD "", file_timestamp s1, [file_timestamp s1],
            cA.author.getD "Unknown", cA.video_id.getD ""⟩)] cB
      = [(a, ⟨cA.publish_date.getD "", file_timestamp s1, [file_timestamp s1],
              cA.author.getD "Unknown", cA.video_id.getD ""⟩),
         (b, ⟨cB.publish_date.getD "", file_timestamp s1, [file_timestamp s1],
              cB.author.getD "Unknown", cB.video_id.getD ""⟩)] := by
    simp [rebuildComment, hB, truthy, hb, dictFind?, hab]
  have e3 : rebuildComment (file_timestamp s2)
      [(a, ⟨cA.publish_date.getD "", file_timestamp s1, [file_timestamp s1],
            cA.author.getD "Unknown", cA.video_id.getD ""⟩),
       (b, ⟨cB.publish_date.getD "", file_timestamp s1, [file_timestamp s1],
            cB.author.getD "Unknown", cB.video_id.getD ""⟩)] cB'
      = [(a, ⟨cA.publish_date.getD "", file_timestamp s1, [file_timestamp s1],
              cA.author.getD "Unknown", cA.video_id.getD ""⟩),
         (b, ⟨cB.publish_date.getD "", file_timestamp s2,
              [file_timestamp s1, file_timestamp s2],
              cB.author.getD "Unknown", cB.video_id.getD ""⟩)] := by
    simp [rebuildComment, hB', truthy, hb, dictFind?, hab, Ne.symm hts, dictSet]
  have e4 : rebuildComment (file_timestamp s2)
      [(a, ⟨cA.publish_date.getD "", file_timestamp s1, [file_timestamp s1],
            cA.author.getD "Unknown", cA.video_id.getD ""⟩),
       (b, ⟨cB.publish_date.getD "", file_timestamp s2,
            [file_timestamp s1, file_timestamp s2],
            cB.author.getD "Unknown", cB.video_id.getD ""⟩)] cC
      = [(a, ⟨cA.publish_date.getD "", file_timestamp s1, [file_timestamp s1],
              cA.author.getD "Unknown", cA.video_id.getD ""⟩),
         (b, ⟨cB.publish_date.getD "", file_timestamp s2,
              [file_timestamp s1, file_timestamp s2],
              cB.author.getD "Unknown", cB.video_id.getD ""⟩),
         (c, ⟨cC.publish_date.getD "", file_timestamp s2, [file_timestamp s2],
              cC.author.getD "Unknown", cC.video_id.getD ""⟩)] := by
    simp [rebuildComment, hC, truthy, hc, dictFind?, hac, hbc]
  show rebuildComment (file_timestamp s2)
      (rebuildComment (file_timestamp s2)
        (rebuildComment (file_timestamp s1)
          (rebuildComment (file_timestamp s1) [] cA) cB) cB') cC = _
  rw [e1, e2, e3, e4]

/-- Witness for `rebuild_two_files_spec` at concrete files and items. -/
theorem rebuild_two_files_spec_witness :
    rebuild_from_previous_runs
      [⟨"comments_20240101_120000",
        [("v1", ⟨some [⟨some "A", some "pA", some "uA", some "v1"⟩,
                       ⟨some "B", some "pB", some "uB", some "v1"⟩]⟩)]⟩,
       ⟨"comments_20240102_130000.json",
        [("v2", ⟨some [⟨some "B", some "pB", some "uB", some "v2"⟩,
                       ⟨some "C", some "pC", some "uC", some "v2"⟩]⟩)]⟩]
    = [("A", ⟨"pA", "20240101_120000", ["20240101_120000"], "uA", "v1"⟩),
       ("B", ⟨"pB", "20240102_130000", ["20240101_120000", "20240102_130000"],
              "uB", "v1"⟩),
       ("C", ⟨"pC", "20240102_130000", ["20240102_130000"], "uC", "v2"⟩)] := by
  have h := rebuild_two_files_spec "comments_20240101_120000"
    "comments_20240102_130000.json" "A" "B" "C" "v1" "v2"
    ⟨some "A", some "pA", some "uA", some "v1"⟩
    ⟨some "B", some "pB", some "uB", some "v1"⟩
    ⟨some "B", some "pB", some "uB", some "v2"⟩
    ⟨some "C", some "pC", some "uC", some "v2"⟩
    rfl rfl rfl rfl (by decide) (by decide) (by decide)
    (by decide) (by decide) (by decide) (by decide)
  rw [h]
  decide

/-! ### Theorems about the thread harvester -/

/-- **C7.** The kept replies are the top-K by like count descending with
ties broken by original order: the concrete example
`[{likes:5},{likes:9},{likes:1}]`, K=2 gives `[{likes:9},{likes:5}]`;
the selection is always sorted by likes descending; and the underlying
sort is stable (any originally ordered pair with non-increasing likes
keeps its order). -/
theorem top_replies_sorted_stable :
    top_replies_by_likes 2
      [⟨"r1", "v", some "p", true, "a", 5, "", "", 0⟩,
       ⟨"r2", "v", some "p", true, "a", 9, "", "", 0⟩,
       ⟨"r3", "v", some "p", true, "a", 1, "", "", 0⟩]
    = [⟨"r2", "v", some "p", true, "a", 9, "", "", 0⟩,
       ⟨"r1", "v", some "p", true, "a", 5, "", "", 0⟩]
    ∧ (∀ (k : Nat) (replies : List PComment),
        (top_replies_by_likes k replies).Sorted (fun x y => y.likes ≤ x.likes))
    ∧ (∀ (a b : PComment) (replies : List PComment),
        List.Sublist [a, b] replies → b.likes ≤ a.likes →
        List.Sublist [a, b] (pySortByLikesDesc replies)) := by
  refine ⟨by decide, ?_, ?_⟩
  · intro k replies
    exact List.Pairwise.sublist (List.take_sublist k _)
      (List.sorted_insertionSort _ replies)
  · intro a b replies hsub hle
    exact List.pair_sublist_insertionSort hle hsub

/-- Witness for `top_replies_sorted_stable`: a tie (two replies with 5
likes) keeps its original order through the sort. -/
theorem top_replies_sorted_stable_witness :
    List.Sublist
      [⟨"x", "v", none, true, "a", 5, "", "", 0⟩,
       ⟨"y", "v", none, true, "a", 5, "", "", 0⟩]
      (pySortByLikesDesc
        [⟨"x", "v", none, true, "a", 5, "", "", 0⟩,
         ⟨"y", "v", none, true, "a", 5, "", "", 0⟩]) :=
  top_replies_sorted_stable.2.2
    ⟨"x", "v", none, true, "a", 5, "", "", 0⟩
    ⟨"y", "v", none, true, "a", 5, "", "", 0⟩
    [⟨"x", "v", none, true, "a", 5, "", "", 0⟩,
     ⟨"y", "v", none, true, "a", 5, "", "", 0⟩]
    (List.Sublist.refl _) (Nat.le_refl 5)

/-- **C5.** Divergence at the disabled-comments scenario: when every
attempt of the first page fetch raises an `HttpError` with status 403
whose text mentions `commentsDisabled`, the retry wrapper retries it
(403 is in `RETRY_STATUS_CODES`) and then raises a plain `Exception`,
so the dedicated `except HttpError` arm never sees it: the harvester
returns reason `"Error: Failed after 5 attempts"` instead of
`"Comments disabled"`, and the quota ledger is left untouched (no
charge is attempted). -/
theorem fetch_unlimited_disabled_comments_divergence :
    (fetch_video_comments_unlimited
      ⟨fun _ _ _ => .httpError 403 true "commentsDisabled", fun _ _ => .otherError ""⟩
      "vid" "t" 10 ⟨0, 0, []⟩).1
      = empty_comment_result "Error: Failed after 5 attempts"
    ∧ (fetch_video_comments_unlimited
      ⟨fun _ _ _ => .httpError 403 true "commentsDisabled", fun _ _ => .otherError ""⟩
      "vid" "t" 10 ⟨0, 0, []⟩).2 = ⟨0, 0, []⟩
    ∧ (fetch_video_comments_unlimited
      ⟨fun _ _ _ => .httpError 403 true "commentsDisabled", fun _ _ => .otherError ""⟩
      "vid" "t" 10 ⟨0, 0, []⟩).1.skip_reason ≠ "Comments disabled" := by
  exact ⟨by decide, by decide, by decide⟩

theorem dictFind?_mem {β : Type} (k : String) (v : β) :
    ∀ l : List (String × β), dictFind? k l = some v → (k, v) ∈ l := by
  intro l
  induction l with
  | nil => intro h; simp [dictFind?] at h
  | cons a t ih =>
    intro h
    by_cases hk : a.1 = k
    · simp only [dictFind?, hk, if_true, Option.some.injEq] at h
      exact List.mem_cons.mpr (Or.inl (Prod.ext hk.symm h.symm))
    · simp only [dictFind?, hk, if_false] at h
      exact List.mem_cons_of_mem a (ih h)

theorem mem_dictSet {β : Type} (k : String) (v : β) :
    ∀ (l : List (String × β)) (e : String × β),
    e ∈ dictSet k v l → e = (k, v) ∨ e ∈ l := by
  intro l
  induction l with
  | nil => intro e he; simp [dictSet] at he; exact Or.inl he
  | cons a t ih =>
    intro e he
    by_cases hk : a.1 = k
    · simp only [dictSet, hk, if_true] at he
      rcases List.mem_cons.mp he with h | h
      · exact Or.inl h
      · exact Or.inr (List.mem_cons_of_mem a h)
    · simp only [dictSet, hk, if_false] at he
      rcases List.mem_cons.mp he with h | h
      · exact Or.inr (h ▸ List.mem_cons_self a t)
      · rcases ih e h with h' | h'
        · exact Or.inl h'
        · exact Or.inr (List.mem_cons_of_mem a h')

theorem mem_init_video_state (states : VideoStates) (video_id : String)
    (estimated : Nat) (e : String × VideoState)
    (he : e ∈ init_video_state states video_id estimated) :
    e ∈ states ∨ e.2 = ⟨0, 0, none, false, estimated, []⟩ := by
  unfold init_video_state at he
  rcases hf : dictFind? video_id states with _ | v
  · rw [hf] at he
    rcases List.mem_append.mp he with h | h
    · exact Or.inl h
    · right
      rcases List.mem_singleton.mp h with rfl
      rfl
  · rw [hf] at he
    exact Or.inl he

theorem fetch_unlimited_loop_pages (env : ApiEnv) (vid now : String) :
    ∀ (fuel : Nat) (state : List PComment × Option String × Nat × QuotaState),
    (fetch_unlimited_loop env vid now fuel state).1.pages_processed
      ≤ state.2.2.1 + fuel := by
  intro fuel
  induction fuel with
  | zero =>
    intro state
    obtain ⟨a, t, pc, qs⟩ := state
    simp [fetch_unlimited_loop, unlimitedFinish]
  | succ fuel ih =>
    intro state
    obtain ⟨a, t, pc, qs⟩ := state
    simp only [fetch_unlimited_loop]
    repeat' split
    all_goals
      first
      | (refine le_trans (ih _) ?_
         show pc + 1 + fuel ≤ pc + (fuel + 1)
         omega)
      | (simp only [unlimitedFinish, empty_comment_result]
         omega)

theorem fetch_balanced_loop_pages (env : ApiEnv) (vid now : String) :
    ∀ (fuel : Nat)
      (state : List PComment × Option String × Nat × QuotaState × VideoState),
    state.2.2.2.2.pages_processed + fuel ≤ basic_max_pages →
    (fetch_balanced_loop env vid now fuel state).1.total_pages_processed
        ≤ basic_max_pages
    ∧ (fetch_balanced_loop env vid now fuel state).2.2.pages_processed
        ≤ basic_max_pages := by
  intro fuel
  induction fuel with
  | zero =>
    intro state hs
    obtain ⟨a, t, pc, qs, vs⟩ := state
    have hs' : vs.pages_processed + 0 ≤ basic_max_pages := hs
    simp only [fetch_balanced_loop, balancedFinish]
    constructor <;> omega
  | succ fuel ih =>
    intro state hs
    obtain ⟨a, t, pc, qs, vs⟩ := state
    have hs' : vs.pages_processed + (fuel + 1) ≤ basic_max_pages := hs
    simp only [fetch_balanced_loop]
    repeat' split
    all_goals
      first
      | (refine ih _ ?_
         show vs.pages_processed + 1 + fuel ≤ basic_max_pages
         omega)
      | (constructor <;>
          (simp only [balancedFinish, empty_balanced_result]
           omega))

/-- **C6.** Page ceilings are respected: the priority fetcher never
reports more than `priority_max_pages = 200` pages processed, and the
balanced fetcher never lets a video's cumulative `pages_processed`
resume state (or the reported total) exceed `basic_max_pages = 100`,
whatever page tokens the service keeps offering. -/
theorem page_ceiling_respected (env : ApiEnv) (video_id now : String)
    (comment_count : Nat) (mp : Option Nat) (qs : QuotaState)
    (states : VideoStates)
    (hst : ∀ e ∈ states, e.2.pages_processed ≤ basic_max_pages) :
    (fetch_video_comments_unlimited env video_id now comment_count qs).1.pages_processed
        ≤ priority_max_pages
    ∧ (fetch_video_comments_balanced env video_id now comment_count mp qs
        states).1.total_pages_processed ≤ basic_max_pages
    ∧ ∀ e ∈ (fetch_video_comments_balanced env video_id now comment_count mp qs
        states).2.2, e.2.pages_processed ≤ basic_max_pages := by
  have hinit : ∀ e ∈ init_video_state states video_id comment_count,
      e.2.pages_processed ≤ basic_max_pages := by
    intro e he
    rcases mem_init_video_state states video_id comment_count e he with h | h
    · exact hst e h
    · rw [h]
      exact Nat.zero_le _
  have hv : ((dictFind? video_id (init_video_state states video_id
      comment_count)).getD ⟨0, 0, none, false, comment_count, []⟩).pages_processed
      ≤ basic_max_pages := by
    rcases hf : dictFind? video_id (init_video_state states video_id comment_count)
      with _ | v
    · simp
    · simpa using hinit _ (dictFind?_mem _ _ _ hf)
  refine ⟨?_, ?_, ?_⟩
  · unfold fetch_video_comments_unlimited
    split
    · simp [empty_comment_result]
    · exact le_trans (fetch_unlimited_loop_pages env video_id now
        priority_max_pages ([], none, 0, qs)) (by simp)
  · simp only [fetch_video_comments_balanced]
    split
    · simp [empty_balanced_result]
    · split
      · simp [empty_balanced_result]
      · split
        · simp [empty_balanced_result]
        · refine (fetch_balanced_loop_pages env video_id now _ _ ?_).1
          dsimp only
          omega
  · simp only [fetch_video_comments_balanced]
    split
    · exact fun e he => hst e he
    · split
      · exact fun e he => hinit e he
      · split
        · intro e he
          rcases mem_dictSet _ _ _ e he with h | h
          · rw [h]
            simpa using hv
          · exact hinit e h
        · intro e he
          rcases mem_dictSet _ _ _ e he with h | h
          · rw [h]
            refine (fetch_balanced_loop_pages env video_id now _ _ ?_).2
            dsimp only
            omega
          · exact hinit e h

theorem collectGuarded_inv (start : List String)
    (p : List PComment × List String) (c : PComment)
    (h : CollectInv start p) : CollectInv start (collectGuarded p c) := by
  obtain ⟨h1, h2, h3, h4⟩ := h
  unfold collectGuarded
  split
  · exact ⟨h1, h2, h3, h4⟩
  · rename_i hc
    refine ⟨?_, ?_, ?_, ?_⟩
    · intro i hi
      exact List.mem_append_left _ (h1 i hi)
    · show ((p.1 ++ [c]).map PComment.comment_id).Nodup
      rw [List.map_append]
      rw [List.nodup_append]
      refine ⟨h2, by simp, ?_⟩
      intro a ha hb
      rcases List.mem_map.mp ha with ⟨x, hx, rfl⟩
      have heq : x.comment_id = c.comment_id := by simpa using hb
      exact hc (heq ▸ h3 x hx)
    · intro d hd
      rcases List.mem_append.mp hd with h' | h'
      · exact List.mem_append_left _ (h3 d h')
      · rcases List.mem_singleton.mp h' with rfl
        exact List.mem_append_right _ (List.mem_singleton.mpr rfl)
    · intro d hd
      rcases List.mem_append.mp hd with h' | h'
      · exact h4 d h'
      · rcases List.mem_singleton.mp h' with rfl
        intro hds
        exact hc (h1 _ hds)

theorem foldl_collectGuarded_inv (start : List String) :
    ∀ (cs : List PComment) (p : List PComment × List String),
    CollectInv start p → CollectInv start (cs.foldl collectGuarded p) := by
  intro cs
  induction cs with
  | nil => exact fun p h => h
  | cons c cs ih => exact fun p h => ih _ (collectGuarded_inv start p c h)

theorem processThreadItemBalanced_inv (start : List String)
    (video_id : String) (p : List PComment × List String) (item : ThreadItem)
    (h : CollectInv start p) :
    CollectInv start (processThreadItemBalanced video_id p item) := by
  simp only [processThreadItemBalanced]
  have h1 := collectGuarded_inv start p
    (process_comment_with_keywords item.topLevelComment video_id false none) h
  split
  · split
    · exact foldl_collectGuarded_inv start _ _ h1
    · exact h1
  · exact h1

theorem items_fold_inv (start : List String) (video_id : String) :
    ∀ (items : List ThreadItem) (p : List PComment × List String),
    CollectInv start p →
    CollectInv start (items.foldl (processThreadItemBalanced video_id) p) := by
  intro items
  induction items with
  | nil => exact fun p h => h
  | cons it items ih =>
    exact fun p h => ih _ (processThreadItemBalanced_inv start video_id p it h)

theorem fetch_balanced_loop_inv (env : ApiEnv) (vid now : String)
    (start : List String) :
    ∀ (fuel : Nat)
      (state : List PComment × Option String × Nat × QuotaState × VideoState),
    CollectInv start (state.1, state.2.2.2.2.collected_comment_ids) →
    CollectInv start
      ((fetch_balanced_loop env vid now fuel state).1.all_comments,
        (fetch_balanced_loop env vid now fuel state).2.2.collected_comment_ids) := by
  intro fuel
  induction fuel with
  | zero =>
    intro state h
    obtain ⟨a, t, pc, qs, vs⟩ := state
    exact h
  | succ fuel ih =>
    intro state h
    obtain ⟨a, t, pc, qs, vs⟩ := state
    have hempty : CollectInv start (([] : List PComment), vs.collected_comment_ids) :=
      ⟨h.1, by simp, by simp, by simp⟩
    simp only [fetch_balanced_loop]
    repeat' split
    all_goals
      first
      | exact h
      | exact hempty
      | (exact ih _ (items_fold_inv start vid _ _ h))
      | (exact items_fold_inv start vid _ _ h)

/-- `collectedIds` is unchanged by `init_video_state` (a fresh state
starts with an empty id set). -/
theorem collectedIds_init (video_id : String) (states : VideoStates)
    (estimated : Nat) :
    collectedIds video_id (init_video_state states video_id estimated)
      = collectedIds video_id states := by
  cases hf : dictFind? video_id states with
  | none =>
    simp only [collectedIds, init_video_state, hf]
    rw [dictFind?_append_of_eq_none _ _ _ hf]
    simp [dictFind?]
  | some v =>
    simp only [collectedIds, init_video_state, hf]

theorem collectedIds_dictSet (video_id : String) (v : VideoState)
    (states : VideoStates) :
    collectedIds video_id (dictSet video_id v states)
      = v.collected_comment_ids := by
  unfold collectedIds
  rw [dictFind?_dictSet]
  simp

/-- Per-call id discipline of the balanced fetcher: the returned
comment ids are duplicate-free, none of them was in the video's
collected-id set when the call started, the start set survives into the
final resume state, and every returned id is recorded there. -/
theorem fetch_balanced_call_ids (env : ApiEnv) (vid now : String)
    (cc : Nat) (mp : Option Nat) (qs : QuotaState) (states : VideoStates) :
    ((fetch_video_comments_balanced env vid now cc mp qs states).1.all_comments.map
      PComment.comment_id).Nodup
    ∧ (∀ c ∈ (fetch_video_comments_balanced env vid now cc mp qs states).1.all_comments,
        c.comment_id ∉ collectedIds vid states)
    ∧ (∀ i ∈ collectedIds vid states,
        i ∈ collectedIds vid (fetch_video_comments_balanced env vid now cc mp qs states).2.2)
    ∧ (∀ c ∈ (fetch_video_comments_balanced env vid now cc mp qs states).1.all_comments,
        c.comment_id ∈ collectedIds vid
          (fetch_video_comments_balanced env vid now cc mp qs states).2.2) := by
  have hinitc := collectedIds_init vid states cc
  have hvs : ((dictFind? vid (init_video_state states vid cc)).getD
      ⟨0, 0, none, false, cc, []⟩).collected_comment_ids
      = collectedIds vid (init_video_state states vid cc) := by
    unfold collectedIds
    rcases hf : dictFind? vid (init_video_state states vid cc) with _ | v
    · simp
    · simp
  simp only [fetch_video_comments_balanced]
  split
  · exact ⟨by simp [empty_balanced_result], by simp [empty_balanced_result],
      fun i hi => hi, by simp [empty_balanced_result]⟩
  · split
    · exact ⟨by simp [empty_balanced_result], by simp [empty_balanced_result],
        fun i hi => by rwa [hinitc], by simp [empty_balanced_result]⟩
    · split
      · refine ⟨by simp [empty_balanced_result], by simp [empty_balanced_result],
          ?_, by simp [empty_balanced_result]⟩
        intro i hi
        rw [collectedIds_dictSet]
        dsimp only
        rw [hvs, hinitc]
        exact hi
      · have hstartinv : CollectInv (collectedIds vid states)
            (([] : List PComment),
              (([], ((dictFind? vid (init_video_state states vid cc)).getD
                ⟨0, 0, none, false, cc, []⟩).last_page_token, 0, qs,
                (dictFind? vid (init_video_state states vid cc)).getD
                  ⟨0, 0, none, false, cc, []⟩) :
                List PComment × Option String × Nat × QuotaState ×
                  VideoState).2.2.2.2.collected_comment_ids) := by
          dsimp only
          rw [hvs, hinitc]
          exact ⟨fun i hi => hi, by simp, by simp, by simp⟩
        have hloop := fetch_balanced_loop_inv env vid now (collectedIds vid states)
          (mp.getD max_pages_per_round ⊓ (basic_max_pages -
            ((dictFind? vid (init_video_state states vid cc)).getD
              ⟨0, 0, none, false, cc, []⟩).pages_processed))
          ([], ((dictFind? vid (init_video_state states vid cc)).getD
              ⟨0, 0, none, false, cc, []⟩).last_page_token, 0, qs,
            (dictFind? vid (init_video_state states vid cc)).getD
              ⟨0, 0, none, false, cc, []⟩)
          hstartinv
        refine ⟨hloop.2.1, hloop.2.2.2, ?_, ?_⟩
        · intro i hi
          rw [collectedIds_dictSet]
          exact hloop.1 i hi
        · intro c hc
          rw [collectedIds_dictSet]
          exact hloop.2.2.1 c hc

/-- **C10.** Across any sequence of balanced rounds in one process run,
`fetch_video_comments_balanced` never returns the same comment id twice
for the same video: the concatenation of the returned id lists is
duplicate-free, ids already in the resume set when the run starts are
never returned, and every returned id (and every starting id) is
recorded in the final `collected_comment_ids` resume state. -/
theorem balanced_never_returns_id_twice (envs : List ApiEnv)
    (vid now : String) (cc : Nat) (qs : QuotaState) (states : VideoStates) :
    (((run_balanced_rounds envs vid now cc qs states).1.map
      (fun l => l.map PComment.comment_id)).flatten).Nodup
    ∧ (∀ i ∈ collectedIds vid states,
        i ∉ ((run_balanced_rounds envs vid now cc qs states).1.map
          (fun l => l.map PComment.comment_id)).flatten)
    ∧ (∀ i ∈ collectedIds vid states,
        i ∈ collectedIds vid (run_balanced_rounds envs vid now cc qs states).2.2)
    ∧ (∀ l ∈ (run_balanced_rounds envs vid now cc qs states).1, ∀ c ∈ l,
        c.comment_id ∈ collectedIds vid
          (run_balanced_rounds envs vid now cc qs states).2.2) := by
  induction envs generalizing qs states with
  | nil =>
    refine ⟨by simp [run_balanced_rounds], ?_, ?_, ?_⟩
    · intro i hi
      simp [run_balanced_rounds]
    · intro i hi
      simpa [run_balanced_rounds] using hi
    · intro l hl
      simp [run_balanced_rounds] at hl
  | cons e rest ih =>
    have hcall := fetch_balanced_call_ids e vid now cc none qs states
    have ih' := ih
      (fetch_video_comments_balanced e vid now cc none qs states).2.1
      (fetch_video_comments_balanced e vid now cc none qs states).2.2
    simp only [run_balanced_rounds, List.map_cons, List.flatten_cons]
    refine ⟨?_, ?_, ?_, ?_⟩
    · rw [List.nodup_append]
      refine ⟨hcall.1, ih'.1, ?_⟩
      intro a ha hb
      rcases List.mem_map.mp ha with ⟨x, hx, rfl⟩
      exact ih'.2.1 _ (hcall.2.2.2 x hx) hb
    · intro i hi hmem
      rcases List.mem_append.mp hmem with h' | h'
      · rcases List.mem_map.mp h' with ⟨x, hx, rfl⟩
        exact hcall.2.1 x hx hi
      · exact ih'.2.1 i (hcall.2.2.1 i hi) h'
    · intro i hi
      exact ih'.2.2.1 i (hcall.2.2.1 i hi)
    · intro l hl c hc
      rcases List.mem_cons.mp hl with h' | h'
      · subst h'
        exact ih'.2.2.1 _ (hcall.2.2.2 c hc)
      · exact ih'.2.2.2 l h' c hc

/-- Witness for `balanced_never_returns_id_twice`: one round against a
one-item service, a resume state already holding id "z"; "z" is not
among the returned ids. -/
theorem balanced_never_returns_id_twice_witness :
    "z" ∉ ((run_balanced_rounds
      [⟨fun _ _ _ => .success ⟨[⟨"c1", ⟨"c1", none, none, none, none, none⟩,
          0, none⟩], none⟩, fun _ _ => .otherError "e"⟩]
      "v" "t" 10 ⟨0, 0, []⟩
      [("v", ⟨0, 0, none, false, 10, ["z"]⟩)]).1.map
        (fun l => l.map PComment.comment_id)).flatten :=
  (balanced_never_returns_id_twice
    [⟨fun _ _ _ => .success ⟨[⟨"c1", ⟨"c1", none, none, none, none, none⟩,
        0, none⟩], none⟩, fun _ _ => .otherError "e"⟩]
    "v" "t" 10 ⟨0, 0, []⟩
    [("v", ⟨0, 0, none, false, 10, ["z"]⟩)]).2.1 "z" (by decide)

theorem roundsLoop_no_progress_last (env : ApiEnv) (now : String)
    (channels : List (String × ChannelData)) :
    ∀ (fuel round : Nat) (st : OrchState) (pre : List (Nat × Bool))
      (n : Nat) (post : List (Nat × Bool)),
    (roundsLoop env now channels fuel round st).1 = pre ++ (n, false) :: post →
    post = [] := by
  intro fuel
  induction fuel with
  | zero =>
    intro round st pre n post h
    simp only [roundsLoop] at h
    exact absurd h.symm (by simp)
  | succ fuel ih =>
    intro round st pre n post h
    simp only [roundsLoop] at h
    split at h
    · split at h
      · cases pre with
        | nil =>
          simp only [List.nil_append, List.cons.injEq, Prod.mk.injEq] at h
          exact absurd h.1.2 (by simp)
        | cons p pre' =>
          simp only [List.cons_append, List.cons.injEq] at h
          exact ih (round + 1) _ pre' n post h.2
      · cases pre with
        | nil =>
          simp only [List.nil_append, List.cons.injEq] at h
          exact h.2.symm
        | cons p pre' =>
          simp only [List.cons_append, List.cons.injEq] at h
          exact absurd h.2.symm (by simp)
    · exact absurd h.symm (by simp)

theorem roundsLoop_numbers (env : ApiEnv) (now : String)
    (channels : List (String × ChannelData)) :
    ∀ (fuel round : Nat) (st : OrchState),
    (roundsLoop env now channels fuel round st).1.map Prod.fst
      = List.range' round (roundsLoop env now channels fuel round st).1.length := by
  intro fuel
  induction fuel with
  | zero =>
    intro round st
    simp [roundsLoop]
  | succ fuel ih =>
    intro round st
    simp only [roundsLoop]
    split
    · split
      · simp only [List.map_cons, List.length_cons, List.range'_succ]
        rw [ih (round + 1)]
      · simp
    · simp

/-- **C8.** A balanced-phase round in which no resource yields any new
item stops the phase: in the executed-round trace, a zero-progress
round is always the last one (nothing follows it), and the executed
round numbers are consecutive starting at 1 — so round n+1 is never
started after a zero-progress round n. -/
theorem balanced_rounds_stop_after_no_progress (env : ApiEnv) (now : String)
    (channels : List (String × ChannelData)) (st : OrchState) :
    (∀ (pre : List (Nat × Bool)) (n : Nat) (post : List (Nat × Bool)),
      (process_balanced_phase env now channels st).1 = pre ++ (n, false) :: post →
      post = [])
    ∧ (process_balanced_phase env now channels st).1.map Prod.fst
        = List.range' 1 (process_balanced_phase env now channels st).1.length := by
  refine ⟨?_, ?_⟩
  · intro pre n post h
    exact roundsLoop_no_progress_last env now channels max_rounds 1 st pre n post h
  · exact roundsLoop_numbers env now channels max_rounds 1 st

/-- Witness for `balanced_rounds_stop_after_no_progress`: against a
one-page service the first round collects one new comment and the
second round yields nothing, so the trace is exactly
`[(1, true), (2, false)]` and nothing follows the zero-progress round. -/
theorem balanced_rounds_stop_after_no_progress_witness :
    (process_balanced_phase
      ⟨fun _ _ _ => .success ⟨[⟨"c1", ⟨"c1", none, none, none, none, none⟩,
          0, none⟩], none⟩, fun _ _ => .otherError "e"⟩
      "t" [("ch", ⟨"Chan", [⟨"v", "T", 10⟩]⟩)]
      ⟨[], ⟨0, 0, []⟩, []⟩).1 = [(1, true), (2, false)]
    ∧ ([] : List (Nat × Bool)) = [] := by
  refine ⟨by decide, ?_⟩
  exact (balanced_rounds_stop_after_no_progress
    ⟨fun _ _ _ => .success ⟨[⟨"c1", ⟨"c1", none, none, none, none, none⟩,
        0, none⟩], none⟩, fun _ _ => .otherError "e"⟩
    "t" [("ch", ⟨"Chan", [⟨"v", "T", 10⟩]⟩)]
    ⟨[], ⟨0, 0, []⟩, []⟩).1 [(1, true)] 2 [] (by decide)

/-- Witness for `page_ceiling_respected` at a concrete service that
always fails and an empty resume state. -/
theorem page_ceiling_respected_witness :
    (fetch_video_comments_unlimited
      ⟨fun _ _ _ => .otherError "e", fun _ _ => .otherError "e"⟩
      "v" "t" 10 ⟨0, 0, []⟩).1.pages_processed ≤ priority_max_pages :=
  (page_ceiling_respected
    ⟨fun _ _ _ => .otherError "e", fun _ _ => .otherError "e"⟩
    "v" "t" 10 none ⟨0, 0, []⟩ [] (by intro e he; cases he)).1


end CommentsYoutube
